/-
Verification of the wasm-to-cretonne function-body translator
(`src/lib/wasm2cretonne/src/code_translator.rs`) against its specification.

The translator's data model is embedded shallowly:

- SSA `Value`s, `Ebb`s, instruction handles, `FuncRef`s and `SigRef`s are
  opaque dense indices in the source; they are modelled as `Nat`.
- The Rust `Vec` operand stack pushes and pops at its tail.  It is modelled
  by a `List` whose HEAD is the top of the stack, so `Vec::push` is `cons`
  and `Vec::pop` takes the head.  Wherever the source manipulates a tail
  segment of the `Vec` in source order (`split_off`, `extend`,
  `extend_from_slice`, `truncate`), the helpers below perform the matching
  reversals so that argument lists keep the source's order.
- The control stack is likewise a `List` with its head being the top frame,
  so the source's `control_stack[control_stack.len() - 1 - d]` is `cs[d]?`.
- The `FunctionBuilder`/`ILBuilder` backend and the `WasmRuntime` are
  external collaborators (spec §1, §6); the parts of their behaviour the
  core observes are modelled from the spec where noted.
- Rust panics (`unwrap` on `None`, out-of-bounds indexing, `split_off`
  past the end) are modelled by `Option`: `none` is an aborted translation.
-/
import Mathlib

namespace Wasm2Cretonne

/-! ### Scalar types and condition codes (`cretonne::ir`) -/

/-- Cretonne IL scalar types used by the translator (`I32`, `I64`, `F32`, `F64`). -/
inductive Ty
  | I32
  | I64
  | F32
  | F64
deriving DecidableEq, Repr

/-- Integer condition codes (`cretonne::ir::condcodes::IntCC`). -/
inductive IntCC
  | Equal
  | NotEqual
  | SignedLessThan
  | SignedLessThanOrEqual
  | SignedGreaterThan
  | SignedGreaterThanOrEqual
  | UnsignedLessThan
  | UnsignedLessThanOrEqual
  | UnsignedGreaterThan
  | UnsignedGreaterThanOrEqual
deriving DecidableEq, Repr

/-- Float condition codes (`cretonne::ir::condcodes::FloatCC`). -/
inductive FloatCC
  | Equal
  | NotEqual
  | GreaterThan
  | GreaterThanOrEqual
  | LessThan
  | LessThanOrEqual
deriving DecidableEq, Repr

/-- A Cretonne IL function signature, flattened to the value types the
translator reads (`sig.argument_types ... .value_type` and
`sig.return_types ... .value_type`). -/
structure Signature where
  argument_types : List Ty
  return_types : List Ty
deriving DecidableEq, Repr

/-- The type `cretonne::ir::ExtFuncData`: name and signature reference of an imported
function. -/
structure ExtFuncData where
  name : String
  signature : Nat
deriving DecidableEq, Repr

/-! ### IL instructions

The instructions the embedded fragment of `translate_operator` emits,
as data.  `Value`s, `Ebb`s and jump-table references are `Nat`.
Branch/jump argument lists are kept in the source's `Vec` order. -/

inductive Instr
  | jump (dest : Nat) (args : List Nat)
  | brz (cond : Nat) (dest : Nat) (args : List Nat)
  | brnz (cond : Nat) (dest : Nat) (args : List Nat)
  | brTable (arg : Nat) (jt : Nat)
  | trap
  | return_ (args : List Nat)
  | iconst (ty : Ty) (value : Int)
  | f32const (bits : Nat)
  | f64const (bits : Nat)
  | select (cond : Nat) (arg2 : Nat) (arg1 : Nat)
  | call (func : Nat) (args : List Nat)
  | uload8 (ty : Ty) (addr : Nat) (off : Int)
  | sload8 (ty : Ty) (addr : Nat) (off : Int)
  | uload16 (ty : Ty) (addr : Nat) (off : Int)
  | sload16 (ty : Ty) (addr : Nat) (off : Int)
  | uload32 (addr : Nat) (off : Int)
  | sload32 (addr : Nat) (off : Int)
  | load (ty : Ty) (addr : Nat) (off : Int)
  | store (val : Nat) (addr : Nat) (off : Int)
  | istore8 (val : Nat) (addr : Nat) (off : Int)
  | istore16 (val : Nat) (addr : Nat) (off : Int)
  | istore32 (val : Nat) (addr : Nat) (off : Int)
  | uextend (ty : Ty) (arg : Nat)
  | sextend (ty : Ty) (arg : Nat)
  | ireduce (ty : Ty) (arg : Nat)
  | iadd (arg1 arg2 : Nat)
  | isub (arg1 arg2 : Nat)
  | imul (arg1 arg2 : Nat)
  | clz (arg : Nat)
  | ctz (arg : Nat)
  | popcnt (arg : Nat)
  | icmp (cc : IntCC) (arg1 arg2 : Nat)
  | icmpImm (cc : IntCC) (arg : Nat) (imm : Int)
  | fcmp (cc : FloatCC) (arg1 arg2 : Nat)
  | bint (ty : Ty) (arg : Nat)
deriving DecidableEq, Repr

/-- Branch targets of an instruction, used to record predecessor edges
(jump-table edges are recorded separately at entry-insertion time). -/
def Instr.branchTargets : Instr → List Nat
  | .jump dest _ => [dest]
  | .brz _ dest _ => [dest]
  | .brnz _ dest _ => [dest]
  | _ => []

/-- EBB terminators: a block is filled once one of these has been emitted
(`jump`, `return`, `trap`; conditional branches and `br_table` fall through). -/
def Instr.isTerminator : Instr → Bool
  | .jump _ _ => true
  | .return_ _ => true
  | .trap => true
  | _ => false

/-- Retargeting used by `change_jump_destination`: replace the branch
destination of a branch instruction. -/
def Instr.retarget (newDest : Nat) : Instr → Instr
  | .jump _ args => .jump newDest args
  | .brz cond _ args => .brz cond newDest args
  | .brnz cond _ args => .brnz cond newDest args
  | i => i

def Instr.isSextendB : Instr → Bool
  | .sextend _ _ => true
  | _ => false

def Instr.isBintB : Instr → Bool
  | .bint _ _ => true
  | _ => false

/-! ### The IL builder (`cton_frontend::FunctionBuilder`)

The builder is an external collaborator (spec §1); only the capabilities
listed in spec §6 are modelled.  Instructions are recorded most-recent-first
together with the EBB they were appended to, their handle and their result
values. -/

/-- One emitted instruction: the EBB it belongs to, its handle, the
instruction itself and its result values. -/
structure EmittedInst where
  ebb : Nat
  id : Nat
  instr : Instr
  results : List Nat
deriving DecidableEq, Repr

structure Builder where
  /-- Emitted instructions, most recent first. -/
  instrs : List EmittedInst
  nextEbb : Nat
  nextValue : Nat
  nextInst : Nat
  /-- The block currently being filled (`position`). -/
  current : Nat
  /-- The entry EBB: the first block switched to. -/
  entry : Option Nat
  sealedList : List Nat
  /-- Formal EBB parameters (`append_ebb_arg`), in declaration order. -/
  ebbArgsMap : List (Nat × List (Nat × Ty))
  /-- Predecessor edges `(target ebb, branch inst handle)`. -/
  preds : List (Nat × Nat)
  jumpTableCount : Nat
  /-- Jump-table entries `(table, index, target ebb)`. -/
  jtEntries : List (Nat × Nat × Nat)
  importedFunctions : List ExtFuncData
  importedSignatures : List Signature
  /-- From `declare_var`: local → declared type. -/
  varTypes : List (Nat × Ty)
  /-- From `def_var`: local → value, most recent first. -/
  varDefs : List (Nat × Nat)
  /-- The SSA values of the function's arguments (`arg_value`). -/
  entryArgs : List Nat
deriving DecidableEq, Repr

/-- Association-list lookup standing in for the `HashMap` lookups of the
source; insertion is `cons`, so the most recent binding wins, which is
observationally the `HashMap` behaviour. -/
def alLookup {α : Type} (l : List (Nat × α)) (k : Nat) : Option α :=
  (l.find? (fun p => p.1 == k)).map (fun p => p.2)

def Builder.new (argCount : Nat) : Builder where
  instrs := []
  nextEbb := 0
  nextValue := argCount
  nextInst := 0
  current := 0
  entry := none
  sealedList := []
  ebbArgsMap := []
  preds := []
  jumpTableCount := 0
  jtEntries := []
  importedFunctions := []
  importedSignatures := []
  varTypes := []
  varDefs := []
  entryArgs := List.range argCount

def Builder.create_ebb (b : Builder) : Nat × Builder :=
  (b.nextEbb, { b with nextEbb := b.nextEbb + 1 })

/-- Behaviour of `switch_to_block(ebb, ..)`: position the builder at `ebb`.  The first
block ever switched to becomes the entry block of the function layout. -/
def Builder.switch_to_block (b : Builder) (ebb : Nat) : Builder :=
  { b with current := ebb, entry := some (b.entry.getD ebb) }

def Builder.seal_block (b : Builder) (ebb : Nat) : Builder :=
  { b with sealedList := ebb :: b.sealedList }

/-- Behaviour of `append_ebb_arg(ebb, ty)`: allocate a fresh value as a formal parameter
of `ebb`. -/
def Builder.append_ebb_arg (b : Builder) (ebb : Nat) (ty : Ty) : Builder :=
  let v := b.nextValue
  let m :=
    if b.ebbArgsMap.any (fun p => p.1 == ebb) then
      b.ebbArgsMap.map (fun p => if p.1 == ebb then (p.1, p.2 ++ [(v, ty)]) else p)
    else
      (ebb, [(v, ty)]) :: b.ebbArgsMap
  { b with nextValue := v + 1, ebbArgsMap := m }

/-- Behaviour of `ebb_args(ebb)`: the formal-parameter values of `ebb`, in declaration
order. -/
def Builder.ebb_args (b : Builder) (ebb : Nat) : List Nat :=
  ((alLookup b.ebbArgsMap ebb).getD []).map (fun p => p.1)

/-- Emit an instruction into the current block: allocate `nres` result
values and a handle, and record predecessor edges for its branch targets. -/
def Builder.emitInst (b : Builder) (i : Instr) (nres : Nat) : List Nat × Nat × Builder :=
  let results := (List.range nres).map (fun k => b.nextValue + k)
  let id := b.nextInst
  (results, id,
    { b with
      instrs := { ebb := b.current, id := id, instr := i, results := results } :: b.instrs
      nextValue := b.nextValue + nres
      nextInst := id + 1
      preds := (i.branchTargets.map (fun t => (t, id))) ++ b.preds })

/-- Emit an instruction with exactly one result and return that result. -/
def Builder.emit1 (b : Builder) (i : Instr) : Nat × Builder :=
  let (_, _, b') := b.emitInst i 1
  (b.nextValue, b')

/-- Emit an instruction with no results and return its handle. -/
def Builder.emit0 (b : Builder) (i : Instr) : Nat × Builder :=
  let (_, id, b') := b.emitInst i 0
  (id, b')

/-- Emit an instruction with `n` results (calls) and return the results. -/
def Builder.emitN (b : Builder) (i : Instr) (n : Nat) : List Nat × Builder :=
  let (results, _, b') := b.emitInst i n
  (results, b')

/-- Behaviour of `change_jump_destination(inst, new_ebb)`: rewrite the branch target of
the instruction with handle `inst` and move its predecessor edge. -/
def Builder.change_jump_destination (b : Builder) (inst : Nat) (newEbb : Nat) : Builder :=
  { b with
    instrs := b.instrs.map (fun e => if e.id == inst then { e with instr := e.instr.retarget newEbb } else e)
    preds := b.preds.map (fun p => if p.2 == inst then (newEbb, p.2) else p) }

/-- Instructions of the current block, most recent first. -/
def Builder.currentInstrs (b : Builder) : List EmittedInst :=
  b.instrs.filter (fun e => e.ebb == b.current)

/-- Behaviour of `is_filled`: the current block already ends with a terminator. -/
def Builder.is_filled (b : Builder) : Bool :=
  match b.currentInstrs with
  | [] => false
  | e :: _ => e.instr.isTerminator

/-- Behaviour of `is_pristine`: nothing has been appended to the current block yet. -/
def Builder.is_pristine (b : Builder) : Bool :=
  b.currentInstrs.isEmpty

/-- Modelled from the spec (`cton_frontend` is out of scope, §1/§6; driver
step 8 and scenario 6 of §8 fix the observable behaviour): a block is
unreachable when it is sealed, has no recorded predecessor edge, and is not
the entry EBB. -/
def Builder.is_unreachable (b : Builder) : Bool :=
  b.entry != some b.current && b.sealedList.contains b.current &&
    (b.preds.filter (fun p => p.1 == b.current)).isEmpty

/-- Behaviour of `arg_value(i)`: the SSA value of the `i`-th function argument. -/
def Builder.arg_value (b : Builder) (i : Nat) : Option Nat :=
  b.entryArgs[i]?

def Builder.declare_var (b : Builder) (loc : Nat) (ty : Ty) : Builder :=
  { b with varTypes := (loc, ty) :: b.varTypes }

def Builder.def_var (b : Builder) (loc : Nat) (v : Nat) : Builder :=
  { b with varDefs := (loc, v) :: b.varDefs }

/-- Modelled from the spec (§3: locals are mutable named slots whose SSA
values the backend materialises): `use_var` yields the value currently
defined for the local; an undefined local is a contract violation. -/
def Builder.use_var (b : Builder) (loc : Nat) : Option Nat :=
  alLookup b.varDefs loc

def Builder.create_jump_table (b : Builder) : Nat × Builder :=
  (b.jumpTableCount, { b with jumpTableCount := b.jumpTableCount + 1 })

/-- Behaviour of `insert_jump_table_entry`: record the entry and a predecessor edge for
the `br_table` instruction about to be emitted (tagged with the handle that
instruction will receive). -/
def Builder.insert_jump_table_entry (b : Builder) (jt index ebb : Nat) : Builder :=
  { b with
    jtEntries := (jt, index, ebb) :: b.jtEntries
    preds := (ebb, b.nextInst) :: b.preds }

/-- Behaviour of `import_function(ExtFuncData)`. -/
def Builder.import_function (b : Builder) (data : ExtFuncData) : Nat × Builder :=
  (b.importedFunctions.length, { b with importedFunctions := b.importedFunctions ++ [data] })

/-- Behaviour of `import_signature(Signature)`. -/
def Builder.import_signature (b : Builder) (sig : Signature) : Nat × Builder :=
  (b.importedSignatures.length, { b with importedSignatures := b.importedSignatures ++ [sig] })

/-- Behaviour of `builder.signature(sigref)`. -/
def Builder.signature (b : Builder) (sigref : Nat) : Option Signature :=
  b.importedSignatures[sigref]?

/-- The instructions of block `ebb` in program order. -/
def Builder.blockInstrs (b : Builder) (ebb : Nat) : List Instr :=
  ((b.instrs.filter (fun e => e.ebb == ebb)).map (fun e => e.instr)).reverse

end Wasm2Cretonne

namespace Wasm2Cretonne

/-! ### Operand-stack helpers

The operand stack is a `List` with its top at the head; these helpers
mirror the `Vec` operations of the source on that representation. -/

/-- Behaviour of `stack.split_off(stack.len() - n)`: remove the top `n` values and return
them in the source's `Vec` (bottom-to-top) order together with the remaining
stack; fails — modelling the Rust panic — when fewer than `n` values are
available. -/
def splitOffTop (n : Nat) (s : List Nat) : Option (List Nat × List Nat) :=
  if n ≤ s.length then some ((s.take n).reverse, s.drop n) else none

/-- Behaviour of `stack.extend(args)` and `stack.extend_from_slice(args)` with `args` in
`Vec` order: push the values in order, so the last of `args` ends on top. -/
def extendTop (args : List Nat) (s : List Nat) : List Nat :=
  args.reverse ++ s

/-- Behaviour of `stack.truncate(k)`: keep the bottom `k` values (no-op when the stack is
already at most `k` deep, like `Vec::truncate`). -/
def truncateTo (k : Nat) (s : List Nat) : List Nat :=
  s.drop (s.length - k)

/-! ### Control stack frames (`ControlStackFrame`) -/

inductive ControlStackFrame
  | If (destination : Nat) (branch_inst : Nat) (return_values : List Ty) (original_stack_size : Nat)
  | Block (destination : Nat) (return_values : List Ty) (original_stack_size : Nat)
  | Loop (destination : Nat) (header : Nat) (return_values : List Ty) (original_stack_size : Nat)
deriving DecidableEq, Repr

def ControlStackFrame.return_values : ControlStackFrame → List Ty
  | .If _ _ rv _ => rv
  | .Block _ rv _ => rv
  | .Loop _ _ rv _ => rv

def ControlStackFrame.following_code : ControlStackFrame → Nat
  | .If d _ _ _ => d
  | .Block d _ _ => d
  | .Loop d _ _ _ => d

def ControlStackFrame.br_destination : ControlStackFrame → Nat
  | .If d _ _ _ => d
  | .Block d _ _ => d
  | .Loop _ header _ _ => header

def ControlStackFrame.original_stack_size : ControlStackFrame → Nat
  | .If _ _ _ n => n
  | .Block _ _ n => n
  | .Loop _ _ _ n => n

def ControlStackFrame.is_loop : ControlStackFrame → Bool
  | .If _ _ _ _ => false
  | .Block _ _ _ => false
  | .Loop _ _ _ _ => true

/-! ### Translation state (`TranslationState`) -/

structure TranslationState where
  last_inst_return : Bool
  phantom_unreachable_stack_depth : Nat
  real_unreachable_stack_depth : Nat
  /-- A `HashSet<Ebb>`, modelled as a duplicate-free list. -/
  br_table_reachable_ebbs : List Nat
deriving DecidableEq, Repr

/-- Behaviour of `HashSet::insert`. -/
def insertEbb (e : Nat) (s : List Nat) : List Nat :=
  if s.contains e then s else e :: s

/-! ### Function imports (`FunctionImports`) -/

structure FunctionImports where
  /-- function index in the module → `FuncRef` of the IL import. -/
  functions : List (Nat × Nat)
  /-- signature index in the module → `SigRef` of the IL import. -/
  signatures : List (Nat × Nat)
deriving DecidableEq, Repr

def FunctionImports.new : FunctionImports := { functions := [], signatures := [] }

/-! ### Type helpers (`translation_utils`)

`translation_utils.rs` is code of this repository that is not under `src/`;
these two helpers are modelled from the spec.  A Wasm block signature type
is either empty or a single value type, modelled as `Option Ty`. -/

/-- Modelled from the spec (§4.2, control-flow openers): `type_to_type`
maps a value type to the corresponding IL scalar type and fails on the
empty block type. -/
def type_to_type : Option Ty → Except Unit Ty
  | some t => .ok t
  | none => .error ()

/-- Modelled from the spec (§4.2): `translate_type(ty).unwrap()` yields the
vector of declared block-return types: empty for the empty block type, a
singleton otherwise. -/
def translate_type : Option Ty → List Ty
  | some t => [t]
  | none => []

/-! ### Runtime collaborator (`WasmRuntime`)

The runtime is an external collaborator (spec §1, §6). -/

/-- Modelled from the spec (§6): a runtime hook
(`translate_memory_base_adress`, `translate_get_global`,
`translate_grow_memory`, `translate_current_memory`) hands the core an
opaque IL value. -/
def runtimeValue (b : Builder) : Nat × Builder :=
  (b.nextValue, { b with nextValue := b.nextValue + 1 })

/-- Modelled from the spec (§6): `translate_call_indirect` hands the core
one opaque IL value per return type of the signature. -/
def runtimeValues (b : Builder) (n : Nat) : List Nat × Builder :=
  ((List.range n).map (fun k => b.nextValue + k), { b with nextValue := b.nextValue + n })

/-- The common effective-address computation of every load/store: memory
base from the runtime, `uextend` the 32-bit Wasm address to `I64`, `iadd`. -/
def effectiveAddr (b : Builder) (address_i32 : Nat) : Nat × Builder :=
  let (base, b) := runtimeValue b
  let (address_i64, b) := b.emit1 (.uextend .I64 address_i32)
  b.emit1 (.iadd base address_i64)

/-- Behaviour of `Offset32::new(offset as i32)`: the `u32` Wasm offset reinterpreted as a
signed 32-bit value. -/
def i32_of_u32 (n : Nat) : Int :=
  if n % 2 ^ 32 < 2 ^ 31 then ((n % 2 ^ 32 : Nat) : Int)
  else ((n % 2 ^ 32 : Nat) : Int) - 2 ^ 32

/-! ### Wasm operators (`wasmparser::Operator`)

The embedded fragment of the operator alphabet: every operator the claims
mention, the whole control-flow and memory families, and representative
arithmetic.  Immediates follow `wasmparser`: indices and relative depths
are `u32` (here `Nat`), `i32.const` carries an `i32` (here `Int`). -/

inductive Operator
  | GetLocal (local_index : Nat)
  | SetLocal (local_index : Nat)
  | TeeLocal (local_index : Nat)
  | GetGlobal (global_index : Nat)
  | SetGlobal (global_index : Nat)
  | Drop
  | Select
  | Nop
  | Unreachable
  | Block (ty : Option Ty)
  | Loop (ty : Option Ty)
  | If (ty : Option Ty)
  | Else
  | End
  | Br (relative_depth : Nat)
  | BrIf (relative_depth : Nat)
  | BrTable (depths : List Nat) (default : Nat)
  | Return
  | Call (function_index : Nat)
  | CallIndirect (index : Nat)
  | GrowMemory
  | CurrentMemory
  | I32Load8U (offset : Nat)
  | I32Load16U (offset : Nat)
  | I32Load8S (offset : Nat)
  | I32Load16S (offset : Nat)
  | I64Load8U (offset : Nat)
  | I64Load16U (offset : Nat)
  | I64Load8S (offset : Nat)
  | I64Load16S (offset : Nat)
  | I64Load32S (offset : Nat)
  | I64Load32U (offset : Nat)
  | I32Load (offset : Nat)
  | F32Load (offset : Nat)
  | I64Load (offset : Nat)
  | F64Load (offset : Nat)
  | I32Store (offset : Nat)
  | I64Store (offset : Nat)
  | F32Store (offset : Nat)
  | F64Store (offset : Nat)
  | I32Store8 (offset : Nat)
  | I64Store8 (offset : Nat)
  | I32Store16 (offset : Nat)
  | I64Store16 (offset : Nat)
  | I64Store32 (offset : Nat)
  | I32Const (value : Int)
  | I64Const (value : Int)
  | F32Const (bits : Nat)
  | F64Const (bits : Nat)
  | I32Clz
  | I64Clz
  | I32Ctz
  | I64Ctz
  | I32Popcnt
  | I64Popcnt
  | I64ExtendSI32
  | I64ExtendUI32
  | I32WrapI64
  | I32Add
  | I64Add
  | I32Sub
  | I64Sub
  | I32Mul
  | I64Mul
  | I32LtS
  | I64LtS
  | I32LtU
  | I64LtU
  | I32LeS
  | I64LeS
  | I32LeU
  | I64LeU
  | I32GtS
  | I64GtS
  | I32GtU
  | I64GtU
  | I32GeS
  | I64GeS
  | I32GeU
  | I64GeU
  | I32Eqz
  | I64Eqz
  | I32Eq
  | I64Eq
  | I32Ne
  | I64Ne
  | F32Eq
  | F64Eq
  | F32Ne
  | F64Ne
  | F32Gt
  | F64Gt
  | F32Ge
  | F64Ge
  | F32Lt
  | F64Lt
  | F32Le
  | F64Le

/-! ### Import resolver -/

/-- From `args_count`: `signatures[functions[index]].argument_types.len()`. -/
def args_count (index : Nat) (functions : List Nat) (signatures : List Signature) :
    Option Nat :=
  match functions[index]? with
  | none => none
  | some sig_index => (signatures[sig_index]?).map (fun s => s.argument_types.length)

/-- The import name: `exports.get(&index)` or the empty `FunctionName`. -/
def exportName (exports : Option (List (Nat × String))) (index : Nat) : String :=
  match exports with
  | none => ""
  | some ex =>
    match alLookup ex index with
    | none => ""
    | some name => name

/-- From `find_function_import`: cached lookup of the IL `FuncRef` for a Wasm
function index, importing the signature and the function on first use. -/
def find_function_import (index : Nat) (b : Builder) (func_imports : FunctionImports)
    (functions : List Nat) (exports : Option (List (Nat × String)))
    (signatures : List Signature) : Option (Nat × Builder × FunctionImports) :=
  match alLookup func_imports.functions index with
  | some local_index => some (local_index, b, func_imports)
  | none =>
    match functions[index]? with
    | none => none
    | some sig_index =>
      match alLookup func_imports.signatures sig_index with
      | some local_sig_index =>
        let (local_func_index, b) :=
          b.import_function { name := exportName exports index, signature := local_sig_index }
        some (local_func_index, b,
          { func_imports with functions := (index, local_func_index) :: func_imports.functions })
      | none =>
        match signatures[sig_index]? with
        | none => none
        | some sg =>
          let (sig_local_index, b) := b.import_signature sg
          let func_imports :=
            { func_imports with signatures := (sig_index, sig_local_index) :: func_imports.signatures }
          let (local_func_index, b) :=
            b.import_function { name := exportName exports index, signature := sig_local_index }
          some (local_func_index, b,
            { func_imports with functions := (index, local_func_index) :: func_imports.functions })

/-- From `find_signature_import`: cached lookup of the IL `SigRef` for a Wasm
signature index, importing the signature on first use. -/
def find_signature_import (sig_index : Nat) (b : Builder) (func_imports : FunctionImports)
    (signatures : List Signature) : Option (Nat × Builder × FunctionImports) :=
  match alLookup func_imports.signatures sig_index with
  | some local_sig_index => some (local_sig_index, b, func_imports)
  | none =>
    match signatures[sig_index]? with
    | none => none
    | some sg =>
      let (sig_local_index, b) := b.import_signature sg
      some (sig_local_index, b,
        { func_imports with signatures := (sig_index, sig_local_index) :: func_imports.signatures })

end Wasm2Cretonne

namespace Wasm2Cretonne

/-! ### Translation context and state -/

/-- The read-only arguments of `translate_function_body` that the operator
translator consults: the function's signature, the module's
function→signature table, the module signature table, and the export-name
map. -/
structure Ctx where
  sig : Signature
  functions : List Nat
  signatures : List Signature
  exports : Option (List (Nat × String))

/-- The mutable state threaded through the translation of one function
body: the builder, the value stack, the control stack, the
`TranslationState` and the import cache. -/
structure TransSt where
  builder : Builder
  stack : List Nat
  controlStack : List ControlStackFrame
  state : TranslationState
  funcImports : FunctionImports
deriving DecidableEq, Repr

/-! ### The reachable-operator translator (`translate_operator`) -/

/-- From `translate_operator`: translate one reachable Wasm operator
(`code_translator.rs` lines 275–1180).  `none` models a Rust panic
(invariant violation, spec §4.6). -/
def translate_operator (op : Operator) (ctx : Ctx) (stIn : TransSt) : Option TransSt :=
  let st : TransSt := { stIn with state := { stIn.state with last_inst_return := false } }
  match op with
  | .GetLocal local_index =>
    match st.builder.use_var local_index with
    | none => none
    | some v => some { st with stack := v :: st.stack }
  | .SetLocal local_index =>
    match st.stack with
    | [] => none
    | val :: rest => some { st with builder := st.builder.def_var local_index val, stack := rest }
  | .TeeLocal local_index =>
    match st.stack with
    | [] => none
    | val :: _ => some { st with builder := st.builder.def_var local_index val }
  | .GetGlobal _ =>
    let (val, b) := runtimeValue st.builder
    some { st with builder := b, stack := val :: st.stack }
  | .SetGlobal _ =>
    match st.stack with
    | [] => none
    | _ :: rest => some { st with stack := rest }
  | .Drop =>
    some { st with stack := st.stack.tail }
  | .Select =>
    match st.stack with
    | cond :: arg2 :: arg1 :: rest =>
      let (v, b) := st.builder.emit1 (.select cond arg2 arg1)
      some { st with builder := b, stack := v :: rest }
    | _ => none
  | .Nop =>
    some st
  | .Unreachable =>
    let (_, b) := st.builder.emit0 .trap
    some { st with
           builder := b
           state := { st.state with real_unreachable_stack_depth := 1 } }
  | .Block ty =>
    let (next, b) := st.builder.create_ebb
    let b :=
      match type_to_type ty with
      | .ok ty_cre => b.append_ebb_arg next ty_cre
      | .error _ => b
    some { st with
           builder := b
           controlStack :=
             ControlStackFrame.Block next (translate_type ty) st.stack.length :: st.controlStack }
  | .Loop ty =>
    let (loop_body, b) := st.builder.create_ebb
    let (next, b) := b.create_ebb
    let b :=
      match type_to_type ty with
      | .ok ty_cre => b.append_ebb_arg next ty_cre
      | .error _ => b
    let (_, b) := b.emit0 (.jump loop_body [])
    let b := b.switch_to_block loop_body
    some { st with
           builder := b
           controlStack :=
             ControlStackFrame.Loop next loop_body (translate_type ty) st.stack.length ::
               st.controlStack }
  | .If ty =>
    match st.stack with
    | [] => none
    | val :: rest =>
      let (if_not, b) := st.builder.create_ebb
      let (jump_inst, b) := b.emit0 (.brz val if_not [])
      let b :=
        match type_to_type ty with
        | .ok ty_cre => b.append_ebb_arg if_not ty_cre
        | .error _ => b
      some { st with
             builder := b
             stack := rest
             controlStack :=
               ControlStackFrame.If if_not jump_inst (translate_type ty) rest.length ::
                 st.controlStack }
  | .Else =>
    match st.controlStack with
    | ControlStackFrame.If destination branch_inst return_values _ :: _ =>
      match splitOffTop return_values.length st.stack with
      | none => none
      | some (jump_args, stack') =>
        let (_, b) := st.builder.emit0 (.jump destination jump_args)
        let (else_ebb, b) := b.create_ebb
        let b := b.change_jump_destination branch_inst else_ebb
        let b := b.seal_block else_ebb
        let b := b.switch_to_block else_ebb
        some { st with builder := b, stack := stack' }
    | _ => none
  | .End =>
    match st.controlStack with
    | [] => none
    | frame :: cs =>
      let b := st.builder
      let jumpStep : Option (Builder × List Nat) :=
        if !b.is_unreachable || !b.is_pristine then
          match splitOffTop frame.return_values.length st.stack with
          | none => none
          | some (jump_args, stack') =>
            let (_, b) := b.emit0 (.jump frame.following_code jump_args)
            some (b, stack')
        else
          some (b, st.stack)
      match jumpStep with
      | none => none
      | some (b, stack') =>
        let b := b.switch_to_block frame.following_code
        let b := b.seal_block frame.following_code
        let b :=
          match frame with
          | .Loop _ header _ _ => b.seal_block header
          | _ => b
        let stack'' := truncateTo frame.original_stack_size stack'
        some { st with
               builder := b
               stack := extendTop (b.ebb_args frame.following_code) stack''
               controlStack := cs }
  | .Br relative_depth =>
    match st.controlStack[relative_depth]? with
    | none => none
    | some frame =>
      let argsStep : Option (List Nat × List Nat) :=
        if frame.is_loop then some ([], st.stack)
        else splitOffTop frame.return_values.length st.stack
      match argsStep with
      | none => none
      | some (jump_args, stack') =>
        let (_, b) := st.builder.emit0 (.jump frame.br_destination jump_args)
        some { st with
               builder := b
               stack := stack'
               state := { st.state with real_unreachable_stack_depth := 1 + relative_depth } }
  | .BrIf relative_depth =>
    match st.stack with
    | [] => none
    | val :: rest =>
      match st.controlStack[relative_depth]? with
      | none => none
      | some frame =>
        match splitOffTop frame.return_values.length rest with
        | none => none
        | some (jump_args, stack') =>
          let (_, b) := st.builder.emit0 (.brnz val frame.br_destination jump_args)
          -- The values returned by the branch are still available for the
          -- reachable code that comes after it.
          some { st with builder := b, stack := extendTop jump_args stack' }
  | .BrTable depths default =>
    let min_depth := depths.foldl (fun m d => if d < m then d else m) default
    match st.controlStack[min_depth]? with
    | none => none
    | some min_frame =>
      let jump_args_count := min_frame.return_values.length
      if jump_args_count = 0 then
        match st.stack with
        | [] => none
        | val :: rest =>
          let tblStep : Option (Builder × TranslationState) :=
            if depths.length > 0 then
              let (jt, b) := st.builder.create_jump_table
              match depths.enum.foldlM
                  (fun (acc : Builder × TranslationState) (p : Nat × Nat) =>
                    match st.controlStack[p.2]? with
                    | none => none
                    | some f =>
                      some (acc.1.insert_jump_table_entry jt p.1 f.br_destination,
                        { acc.2 with
                          br_table_reachable_ebbs :=
                            insertEbb f.br_destination acc.2.br_table_reachable_ebbs }))
                  (b, st.state) with
              | none => none
              | some (b, s) =>
                let (_, b) := b.emit0 (.brTable val jt)
                some (b, s)
            else
              some (st.builder, st.state)
          match tblStep with
          | none => none
          | some (b, s) =>
            match st.controlStack[default]? with
            | none => none
            | some dframe =>
              let (_, b) := b.emit0 (.jump dframe.br_destination [])
              some { st with
                     builder := b
                     stack := rest
                     state := { s with real_unreachable_stack_depth := 1 + min_depth } }
      else
        -- Here we have jump arguments, but Cretonne's br_table doesn't
        -- support them, so the edges out of the br_table are split.
        match st.stack with
        | [] => none
        | val :: rest0 =>
          match splitOffTop jump_args_count rest0 with
          | none => none
          | some (jump_args, stack') =>
            if depths.length > 0 then
              let (jt, b) := st.builder.create_jump_table
              -- One intermediate EBB per distinct depth; repeated entries
              -- share.  (The source collects them in a HashMap and later
              -- iterates it; the iteration order is modelled as insertion
              -- order.)
              let fold : List (Nat × Nat) × Builder :=
                depths.enum.foldl
                  (fun (acc : List (Nat × Nat) × Builder) (p : Nat × Nat) =>
                    match alLookup acc.1 p.2 with
                    | none =>
                      let (branch_ebb, b) := acc.2.create_ebb
                      (acc.1 ++ [(p.2, branch_ebb)],
                        b.insert_jump_table_entry jt p.1 branch_ebb)
                    | some branch_ebb =>
                      (acc.1, acc.2.insert_jump_table_entry jt p.1 branch_ebb))
                  ([], b)
              let (dest_ebbs, b) := fold
              let (_, b) := b.emit0 (.brTable val jt)
              match st.controlStack[default]? with
              | none => none
              | some dframe =>
                let (_, b) := b.emit0 (.jump dframe.br_destination jump_args)
                let stack1 := extendTop jump_args stack'
                match dest_ebbs.foldlM
                    (fun (acc : Builder × TranslationState) (p : Nat × Nat) =>
                      let b := acc.1.switch_to_block p.2
                      let b := b.seal_block p.2
                      match st.controlStack[p.1]? with
                      | none => none
                      | some f =>
                        let (_, b) := b.emit0 (.jump f.br_destination jump_args)
                        some (b,
                          { acc.2 with
                            br_table_reachable_ebbs :=
                              insertEbb p.2 acc.2.br_table_reachable_ebbs }))
                    (b, st.state) with
                | none => none
                | some (b, s) =>
                  some { st with
                         builder := b
                         stack := stack1
                         state := { s with real_unreachable_stack_depth := 1 + min_depth } }
            else
              match st.controlStack[default]? with
              | none => none
              | some dframe =>
                let (_, b) := st.builder.emit0 (.jump dframe.br_destination jump_args)
                some { st with
                       builder := b
                       stack := extendTop jump_args stack'
                       state := { st.state with real_unreachable_stack_depth := 1 + min_depth } }
  | .Return =>
    let return_count := ctx.sig.return_types.length
    match splitOffTop return_count st.stack with
    | none => none
    | some (return_args, stack') =>
      let (_, b) := st.builder.emit0 (.return_ return_args)
      some { st with
             builder := b
             stack := stack'
             state := { st.state with
                        last_inst_return := true
                        real_unreachable_stack_depth := 1 } }
  | .Call function_index =>
    match args_count function_index ctx.functions ctx.signatures with
    | none => none
    | some args_num =>
      match splitOffTop args_num st.stack with
      | none => none
      | some (call_args, stack') =>
        match find_function_import function_index st.builder st.funcImports ctx.functions
            ctx.exports ctx.signatures with
        | none => none
        | some (internal_function_index, b, fi) =>
          -- `inst_results(call_inst)`: one value per return type of the
          -- imported function's signature.
          match b.importedFunctions[internal_function_index]? with
          | none => none
          | some efd =>
            match b.signature efd.signature with
            | none => none
            | some fsig =>
              let (ret_values, b) :=
                b.emitN (.call internal_function_index call_args) fsig.return_types.length
              some { st with
                     builder := b
                     stack := extendTop ret_values stack'
                     funcImports := fi }
  | .CallIndirect index =>
    match find_signature_import index st.builder st.funcImports ctx.signatures with
    | none => none
    | some (sigref, b, fi) =>
      match b.signature sigref with
      | none => none
      | some s =>
        let args_num := s.argument_types.length
        match st.stack with
        | [] => none
        | _index_val :: rest =>
          match splitOffTop args_num rest with
          | none => none
          | some (_call_args, stack') =>
            let (ret_values, b) := runtimeValues b s.return_types.length
            some { st with
                   builder := b
                   stack := extendTop ret_values stack'
                   funcImports := fi }
  | .GrowMemory =>
    match st.stack with
    | [] => none
    | _ :: rest =>
      let (v, b) := runtimeValue st.builder
      some { st with builder := b, stack := v :: rest }
  | .CurrentMemory =>
    let (v, b) := runtimeValue st.builder
    some { st with builder := b, stack := v :: st.stack }
  | .I32Load8U offset =>
    match st.stack with
    | [] => none
    | address_i32 :: rest =>
      let (addr, b) := effectiveAddr st.builder address_i32
      let (v, b) := b.emit1 (.uload8 .I32 addr (i32_of_u32 offset))
      some { st with builder := b, stack := v :: rest }
  | .I32Load16U offset =>
    -- NB: the source emits `uload8` here (lines 635–643).
    match st.stack with
    | [] => none
    | address_i32 :: rest =>
      let (addr, b) := effectiveAddr st.builder address_i32
      let (v, b) := b.emit1 (.uload8 .I32 addr (i32_of_u32 offset))
      some { st with builder := b, stack := v :: rest }
  | .I32Load8S offset =>
    match st.stack with
    | [] => none
    | address_i32 :: rest =>
      let (addr, b) := effectiveAddr st.builder address_i32
      let (v, b) := b.emit1 (.sload8 .I32 addr (i32_of_u32 offset))
      some { st with builder := b, stack := v :: rest }
  | .I32Load16S offset =>
    -- NB: the source emits `sload8` here (lines 653–661).
    match st.stack with
    | [] => none
    | address_i32 :: rest =>
      let (addr, b) := effectiveAddr st.builder address_i32
      let (v, b) := b.emit1 (.sload8 .I32 addr (i32_of_u32 offset))
      some { st with builder := b, stack := v :: rest }
  | .I64Load8U offset =>
    match st.stack with
    | [] => none
    | address_i32 :: rest =>
      let (addr, b) := effectiveAddr st.builder address_i32
      let (v, b) := b.emit1 (.uload8 .I64 addr (i32_of_u32 offset))
      some { st with builder := b, stack := v :: rest }
  | .I64Load16U offset =>
    match st.stack with
    | [] => none
    | address_i32 :: rest =>
      let (addr, b) := effectiveAddr st.builder address_i32
      let (v, b) := b.emit1 (.uload16 .I64 addr (i32_of_u32 offset))
      some { st with builder := b, stack := v :: rest }
  | .I64Load8S offset =>
    match st.stack with
    | [] => none
    | address_i32 :: rest =>
      let (addr, b) := effectiveAddr st.builder address_i32
      let (v, b) := b.emit1 (.sload8 .I64 addr (i32_of_u32 offset))
      some { st with builder := b, stack := v :: rest }
  | .I64Load16S offset =>
    match st.stack with
    | [] => none
    | address_i32 :: rest =>
      let (addr, b) := effectiveAddr st.builder address_i32
      let (v, b) := b.emit1 (.sload16 .I64 addr (i32_of_u32 offset))
      some { st with builder := b, stack := v :: rest }
  | .I64Load32S offset =>
    match st.stack with
    | [] => none
    | address_i32 :: rest =>
      let (addr, b) := effectiveAddr st.builder address_i32
      let (v, b) := b.emit1 (.sload32 addr (i32_of_u32 offset))
      some { st with builder := b, stack := v :: rest }
  | .I64Load32U offset =>
    match st.stack with
    | [] => none
    | address_i32 :: rest =>
      let (addr, b) := effectiveAddr st.builder address_i32
      let (v, b) := b.emit1 (.uload32 addr (i32_of_u32 offset))
      some { st with builder := b, stack := v :: rest }
  | .I32Load offset =>
    match st.stack with
    | [] => none
    | address_i32 :: rest =>
      let (addr, b) := effectiveAddr st.builder address_i32
      let (v, b) := b.emit1 (.load .I32 addr (i32_of_u32 offset))
      some { st with builder := b, stack := v :: rest }
  | .F32Load offset =>
    match st.stack with
    | [] => none
    | address_i32 :: rest =>
      let (addr, b) := effectiveAddr st.builder address_i32
      let (v, b) := b.emit1 (.load .F32 addr (i32_of_u32 offset))
      some { st with builder := b, stack := v :: rest }
  | .I64Load offset =>
    match st.stack with
    | [] => none
    | address_i32 :: rest =>
      let (addr, b) := effectiveAddr st.builder address_i32
      let (v, b) := b.emit1 (.load .I64 addr (i32_of_u32 offset))
      some { st with builder := b, stack := v :: rest }
  | .F64Load offset =>
    match st.stack with
    | [] => none
    | address_i32 :: rest =>
      let (addr, b) := effectiveAddr st.builder address_i32
      let (v, b) := b.emit1 (.load .F64 addr (i32_of_u32 offset))
      some { st with builder := b, stack := v :: rest }
  | .I32Store offset | .I64Store offset | .F32Store offset | .F64Store offset =>
    match st.stack with
    | val :: address_i32 :: rest =>
      let (addr, b) := effectiveAddr st.builder address_i32
      let (_, b) := b.emit0 (.store val addr (i32_of_u32 offset))
      some { st with builder := b, stack := rest }
    | _ => none
  | .I32Store8 offset | .I64Store8 offset =>
    match st.stack with
    | val :: address_i32 :: rest =>
      let (addr, b) := effectiveAddr st.builder address_i32
      let (_, b) := b.emit0 (.istore8 val addr (i32_of_u32 offset))
      some { st with builder := b, stack := rest }
    | _ => none
  | .I32Store16 offset | .I64Store16 offset =>
    match st.stack with
    | val :: address_i32 :: rest =>
      let (addr, b) := effectiveAddr st.builder address_i32
      let (_, b) := b.emit0 (.istore16 val addr (i32_of_u32 offset))
      some { st with builder := b, stack := rest }
    | _ => none
  | .I64Store32 offset =>
    match st.stack with
    | val :: address_i32 :: rest =>
      let (addr, b) := effectiveAddr st.builder address_i32
      let (_, b) := b.emit0 (.istore32 val addr (i32_of_u32 offset))
      some { st with builder := b, stack := rest }
    | _ => none
  | .I32Const value =>
    let (v, b) := st.builder.emit1 (.iconst .I32 value)
    some { st with builder := b, stack := v :: st.stack }
  | .I64Const value =>
    let (v, b) := st.builder.emit1 (.iconst .I64 value)
    some { st with builder := b, stack := v :: st.stack }
  | .F32Const bits =>
    let (v, b) := st.builder.emit1 (.f32const bits)
    some { st with builder := b, stack := v :: st.stack }
  | .F64Const bits =>
    let (v, b) := st.builder.emit1 (.f64const bits)
    some { st with builder := b, stack := v :: st.stack }
  | .I32Clz =>
    match st.stack with
    | [] => none
    | arg :: rest =>
      let (val, b) := st.builder.emit1 (.clz arg)
      let (r, b) := b.emit1 (.sextend .I32 val)
      some { st with builder := b, stack := r :: rest }
  | .I64Clz =>
    match st.stack with
    | [] => none
    | arg :: rest =>
      let (val, b) := st.builder.emit1 (.clz arg)
      let (r, b) := b.emit1 (.sextend .I64 val)
      some { st with builder := b, stack := r :: rest }
  | .I32Ctz =>
    match st.stack with
    | [] => none
    | arg :: rest =>
      let (short_res, b) := st.builder.emit1 (.ctz arg)
      let (r, b) := b.emit1 (.sextend .I32 short_res)
      some { st with builder := b, stack := r :: rest }
  | .I64Ctz =>
    match st.stack with
    | [] => none
    | arg :: rest =>
      let (short_res, b) := st.builder.emit1 (.ctz arg)
      let (r, b) := b.emit1 (.sextend .I64 short_res)
      some { st with builder := b, stack := r :: rest }
  | .I32Popcnt =>
    match st.stack with
    | [] => none
    | arg :: rest =>
      let (val, b) := st.builder.emit1 (.popcnt arg)
      let (r, b) := b.emit1 (.sextend .I32 val)
      some { st with builder := b, stack := r :: rest }
  | .I64Popcnt =>
    match st.stack with
    | [] => none
    | arg :: rest =>
      let (val, b) := st.builder.emit1 (.popcnt arg)
      let (r, b) := b.emit1 (.sextend .I64 val)
      some { st with builder := b, stack := r :: rest }
  | .I64ExtendSI32 =>
    match st.stack with
    | [] => none
    | val :: rest =>
      let (r, b) := st.builder.emit1 (.sextend .I64 val)
      some { st with builder := b, stack := r :: rest }
  | .I64ExtendUI32 =>
    match st.stack with
    | [] => none
    | val :: rest =>
      let (r, b) := st.builder.emit1 (.uextend .I64 val)
      some { st with builder := b, stack := r :: rest }
  | .I32WrapI64 =>
    match st.stack with
    | [] => none
    | val :: rest =>
      let (r, b) := st.builder.emit1 (.ireduce .I32 val)
      some { st with builder := b, stack := r :: rest }
  | .I32Add | .I64Add =>
    match st.stack with
    | arg2 :: arg1 :: rest =>
      let (r, b) := st.builder.emit1 (.iadd arg1 arg2)
      some { st with builder := b, stack := r :: rest }
    | _ => none
  | .I32Sub | .I64Sub =>
    match st.stack with
    | arg2 :: arg1 :: rest =>
      let (r, b) := st.builder.emit1 (.isub arg1 arg2)
      some { st with builder := b, stack := r :: rest }
    | _ => none
  | .I32Mul | .I64Mul =>
    match st.stack with
    | arg2 :: arg1 :: rest =>
      let (r, b) := st.builder.emit1 (.imul arg1 arg2)
      some { st with builder := b, stack := r :: rest }
    | _ => none
  | .I32LtS | .I64LtS =>
    match st.stack with
    | arg2 :: arg1 :: rest =>
      let (val, b) := st.builder.emit1 (.icmp .SignedLessThan arg1 arg2)
      let (r, b) := b.emit1 (.bint .I32 val)
      some { st with builder := b, stack := r :: rest }
    | _ => none
  | .I32LtU | .I64LtU =>
    match st.stack with
    | arg2 :: arg1 :: rest =>
      let (val, b) := st.builder.emit1 (.icmp .UnsignedLessThan arg1 arg2)
      let (r, b) := b.emit1 (.bint .I32 val)
      some { st with builder := b, stack := r :: rest }
    | _ => none
  | .I32LeS | .I64LeS =>
    match st.stack with
    | arg2 :: arg1 :: rest =>
      let (val, b) := st.builder.emit1 (.icmp .SignedLessThanOrEqual arg1 arg2)
      let (r, b) := b.emit1 (.bint .I32 val)
      some { st with builder := b, stack := r :: rest }
    | _ => none
  | .I32LeU | .I64LeU =>
    match st.stack with
    | arg2 :: arg1 :: rest =>
      let (val, b) := st.builder.emit1 (.icmp .UnsignedLessThanOrEqual arg1 arg2)
      let (r, b) := b.emit1 (.bint .I32 val)
      some { st with builder := b, stack := r :: rest }
    | _ => none
  | .I32GtS | .I64GtS =>
    match st.stack with
    | arg2 :: arg1 :: rest =>
      let (val, b) := st.builder.emit1 (.icmp .SignedGreaterThan arg1 arg2)
      let (r, b) := b.emit1 (.bint .I32 val)
      some { st with builder := b, stack := r :: rest }
    | _ => none
  | .I32GtU | .I64GtU =>
    match st.stack with
    | arg2 :: arg1 :: rest =>
      let (val, b) := st.builder.emit1 (.icmp .UnsignedGreaterThan arg1 arg2)
      let (r, b) := b.emit1 (.bint .I32 val)
      some { st with builder := b, stack := r :: rest }
    | _ => none
  | .I32GeS | .I64GeS =>
    match st.stack with
    | arg2 :: arg1 :: rest =>
      let (val, b) := st.builder.emit1 (.icmp .SignedGreaterThanOrEqual arg1 arg2)
      let (r, b) := b.emit1 (.bint .I32 val)
      some { st with builder := b, stack := r :: rest }
    | _ => none
  | .I32GeU | .I64GeU =>
    match st.stack with
    | arg2 :: arg1 :: rest =>
      let (val, b) := st.builder.emit1 (.icmp .UnsignedGreaterThanOrEqual arg1 arg2)
      let (r, b) := b.emit1 (.bint .I32 val)
      some { st with builder := b, stack := r :: rest }
    | _ => none
  | .I32Eqz | .I64Eqz =>
    match st.stack with
    | [] => none
    | arg :: rest =>
      let (val, b) := st.builder.emit1 (.icmpImm .Equal arg 0)
      let (r, b) := b.emit1 (.bint .I32 val)
      some { st with builder := b, stack := r :: rest }
  | .I32Eq | .I64Eq =>
    match st.stack with
    | arg2 :: arg1 :: rest =>
      let (val, b) := st.builder.emit1 (.icmp .Equal arg1 arg2)
      let (r, b) := b.emit1 (.bint .I32 val)
      some { st with builder := b, stack := r :: rest }
    | _ => none
  | .F32Eq | .F64Eq =>
    match st.stack with
    | arg2 :: arg1 :: rest =>
      let (val, b) := st.builder.emit1 (.fcmp .Equal arg1 arg2)
      let (r, b) := b.emit1 (.bint .I32 val)
      some { st with builder := b, stack := r :: rest }
    | _ => none
  | .I32Ne | .I64Ne =>
    match st.stack with
    | arg2 :: arg1 :: rest =>
      let (val, b) := st.builder.emit1 (.icmp .NotEqual arg1 arg2)
      let (r, b) := b.emit1 (.bint .I32 val)
      some { st with builder := b, stack := r :: rest }
    | _ => none
  | .F32Ne | .F64Ne =>
    match st.stack with
    | arg2 :: arg1 :: rest =>
      let (val, b) := st.builder.emit1 (.fcmp .NotEqual arg1 arg2)
      let (r, b) := b.emit1 (.bint .I32 val)
      some { st with builder := b, stack := r :: rest }
    | _ => none
  | .F32Gt | .F64Gt =>
    match st.stack with
    | arg2 :: arg1 :: rest =>
      let (val, b) := st.builder.emit1 (.fcmp .GreaterThan arg1 arg2)
      let (r, b) := b.emit1 (.bint .I32 val)
      some { st with builder := b, stack := r :: rest }
    | _ => none
  | .F32Ge | .F64Ge =>
    match st.stack with
    | arg2 :: arg1 :: rest =>
      let (val, b) := st.builder.emit1 (.fcmp .GreaterThanOrEqual arg1 arg2)
      let (r, b) := b.emit1 (.bint .I32 val)
      some { st with builder := b, stack := r :: rest }
    | _ => none
  | .F32Lt | .F64Lt =>
    match st.stack with
    | arg2 :: arg1 :: rest =>
      let (val, b) := st.builder.emit1 (.fcmp .LessThan arg1 arg2)
      let (r, b) := b.emit1 (.bint .I32 val)
      some { st with builder := b, stack := r :: rest }
    | _ => none
  | .F32Le | .F64Le =>
    match st.stack with
    | arg2 :: arg1 :: rest =>
      let (val, b) := st.builder.emit1 (.fcmp .LessThanOrEqual arg1 arg2)
      let (r, b) := b.emit1 (.bint .I32 val)
      some { st with builder := b, stack := r :: rest }
    | _ => none

end Wasm2Cretonne

namespace Wasm2Cretonne

/-! ### The unreachable-operator translator (`translate_unreachable_operator`) -/

/-- From `translate_unreachable_operator`: deal with an operator located in an
unreachable portion of the code (`code_translator.rs` lines 1185–1267). -/
def translate_unreachable_operator (op : Operator) (st : TransSt) : Option TransSt :=
  match op with
  | .If _ | .Loop _ | .Block _ =>
    some { st with
           state := { st.state with
                      phantom_unreachable_stack_depth :=
                        st.state.phantom_unreachable_stack_depth + 1 } }
  | .End =>
    if st.state.phantom_unreachable_stack_depth > 0 then
      some { st with
             state := { st.state with
                        phantom_unreachable_stack_depth :=
                          st.state.phantom_unreachable_stack_depth - 1 } }
    else
      -- This End corresponds to a real control stack frame: switch to the
      -- destination block without inserting a jump instruction.
      match st.controlStack with
      | [] => none
      | frame :: cs =>
        let b := st.builder.switch_to_block frame.following_code
        let b := b.seal_block frame.following_code
        let (b, s) :=
          match frame with
          | ControlStackFrame.Loop _ header _ _ => (b.seal_block header, st.state)
          | ControlStackFrame.If _ _ _ _ =>
            (b, { st.state with real_unreachable_stack_depth := 1 })
          | _ => (b, st.state)
        let s :=
          if s.br_table_reachable_ebbs.contains frame.following_code then
            { s with real_unreachable_stack_depth := 1 }
          else s
        let stack' := truncateTo frame.original_stack_size st.stack
        let stack'' :=
          if s.real_unreachable_stack_depth = 1 then
            extendTop (b.ebb_args frame.following_code) stack'
          else stack'
        -- `real_unreachable_stack_depth -= 1` on a `usize`: underflow is fatal.
        if s.real_unreachable_stack_depth = 0 then none
        else
          some { st with
                 builder := b
                 stack := stack''
                 controlStack := cs
                 state := { s with
                            real_unreachable_stack_depth := s.real_unreachable_stack_depth - 1
                            last_inst_return := false } }
  | .Else =>
    if st.state.phantom_unreachable_stack_depth > 0 then
      -- part of a phantom if-then-else: do nothing
      some st
    else
      -- a real else: the code in the else clause is reachable again
      match st.controlStack with
      | ControlStackFrame.If _ branch_inst _ original_stack_size :: _ =>
        let (else_ebb, b) := st.builder.create_ebb
        let b := b.change_jump_destination branch_inst else_ebb
        let b := b.seal_block else_ebb
        let b := b.switch_to_block else_ebb
        some { st with
               builder := b
               stack := truncateTo original_stack_size st.stack
               state := { st.state with
                          real_unreachable_stack_depth := 0
                          last_inst_return := false } }
      | _ => none
  | _ =>
    -- We don't translate because this is unreachable code.
    some st

/-! ### The function-body driver (`translate_function_body`) -/

/-- The parser events the driver consumes: `CodeOperator`, `EndFunctionBody`,
and `OtherState` standing for every other `wasmparser::ParserState`. -/
inductive ParserState
  | CodeOperator (op : Operator)
  | EndFunctionBody
  | OtherState

/-- One step of the main loop (lines 222–243): a `CodeOperator` goes to the
unreachable translator when
`phantom_unreachable_stack_depth + real_unreachable_stack_depth > 0` and to
the reachable translator otherwise. -/
def dispatchOperator (op : Operator) (ctx : Ctx) (st : TransSt) : Option TransSt :=
  if st.state.phantom_unreachable_stack_depth + st.state.real_unreachable_stack_depth > 0 then
    translate_unreachable_operator op st
  else
    translate_operator op ctx st

/-- The built IL function: its name, signature, and emitted IL. -/
structure ILFunction where
  name : String
  signature : Signature
  il : Builder
deriving DecidableEq, Repr

/-- The main loop (lines 219–248): read events until `EndFunctionBody`;
any event other than `CodeOperator`/`EndFunctionBody` is the structural
error `"wrong content in function body"`. -/
def translateLoop (events : List ParserState) (ctx : Ctx) (st : TransSt) :
    Option (Except String TransSt) :=
  match events with
  | [] => none
  | ParserState.CodeOperator op :: rest =>
    match dispatchOperator op ctx st with
    | none => none
    | some st' => translateLoop rest ctx st'
  | ParserState.EndFunctionBody :: _ => some (Except.ok st)
  | ParserState.OtherState :: _ => some (Except.error "wrong content in function body")

/-- The epilogue after the loop (lines 249–268): the implicit return, then
closing the implicit function block. -/
def finishFunction (sig : Signature) (st : TransSt) : Option TransSt :=
  let b := st.builder
  let step1 : Option (Builder × List Nat) :=
    if !st.state.last_inst_return && !b.is_filled && (!b.is_unreachable || !b.is_pristine) then
      match splitOffTop sig.return_types.length st.stack with
      | none => none
      | some (return_vals, stack') =>
        let (_, b) := b.emit0 (.return_ return_vals)
        some (b, stack')
    else
      some (b, st.stack)
  match step1 with
  | none => none
  | some (b, stack') =>
    match st.controlStack with
    | [] => none
    | frame :: cs =>
      let b := b.switch_to_block frame.following_code
      let b := b.seal_block frame.following_code
      -- If the block is reachable we also have to include a return
      -- instruction in it.
      if !b.is_unreachable then
        let stack'' := truncateTo frame.original_stack_size stack'
        let stack''' := extendTop (b.ebb_args frame.following_code) stack''
        match splitOffTop sig.return_types.length stack''' with
        | none => none
        | some (return_vals, stack4) =>
          let (_, b) := b.emit0 (.return_ return_vals)
          some { st with builder := b, stack := stack4, controlStack := cs }
      else
        some { st with builder := b, stack := stack', controlStack := cs }

/-- The prologue before the loop (lines 152–217): fresh function and
builder, entry EBB, argument and local binding, and the implicit outer
`Block` frame. -/
def setupFunction (function_index : Nat) (sig : Signature) (locals : List (Nat × Ty))
    (exports : Option (List (Nat × String))) : Option (String × TransSt) :=
  let args_num := sig.argument_types.length
  let name := exportName exports function_index
  let b := Builder.new args_num
  let (first_ebb, b) := b.create_ebb
  let b := b.switch_to_block first_ebb
  let b := b.seal_block first_ebb
  -- The function arguments are declared as non-SSA vars accessed by
  -- get_local.
  let argStep : Option Builder :=
    (List.range args_num).foldlM
      (fun b i =>
        match b.arg_value i, sig.argument_types[i]? with
        | some arg_value, some ty => some ((b.declare_var i ty).def_var i arg_value)
        | _, _ => none)
      b
  match argStep with
  | none => none
  | some b =>
    -- Declare the local variables and initialize them to 0.
    let localStep : Builder × Nat :=
      locals.foldl
        (fun (acc : Builder × Nat) (p : Nat × Ty) =>
          let (b, local_index) := acc
          let (val, b) :=
            match p.2 with
            | .I32 => b.emit1 (.iconst .I32 0)
            | .I64 => b.emit1 (.iconst .I64 0)
            | .F32 => b.emit1 (.f32const 0)
            | .F64 => b.emit1 (.f64const 0)
          (List.range p.1).foldl
            (fun (acc2 : Builder × Nat) _ =>
              let (b, idx) := acc2
              ((b.declare_var idx p.2).def_var idx val, idx + 1))
            (b, local_index))
        (b, args_num)
    let b := localStep.1
    let (end_ebb, b) := b.create_ebb
    some (name,
      { builder := b
        stack := []
        controlStack := [ControlStackFrame.Block end_ebb sig.return_types 0]
        state := { last_inst_return := false
                   phantom_unreachable_stack_depth := 0
                   real_unreachable_stack_depth := 0
                   br_table_reachable_ebbs := [] }
        funcImports := FunctionImports.new })

/-- From `translate_function_body` (lines 142–271): returns `some (.error _)` for
the structural parse error, `some (.ok _)` with the built function and its
imports on success, and `none` when a fatal invariant violation (Rust
panic) aborts the translation. -/
def translate_function_body (parser_events : List ParserState) (function_index : Nat)
    (sig : Signature) (locals : List (Nat × Ty)) (exports : Option (List (Nat × String)))
    (signatures : List Signature) (functions : List Nat) :
    Option (Except String (ILFunction × FunctionImports)) :=
  match setupFunction function_index sig locals exports with
  | none => none
  | some (name, st) =>
    let ctx : Ctx :=
      { sig := sig, functions := functions, signatures := signatures, exports := exports }
    match translateLoop parser_events ctx st with
    | none => none
    | some (Except.error e) => some (Except.error e)
    | some (Except.ok st) =>
      match finishFunction sig st with
      | none => none
      | some st' =>
        some (Except.ok ({ name := name, signature := sig, il := st'.builder }, st'.funcImports))

/-! ### Helpers for the statements of the theorems -/

/-- The instructions emitted between builder state `b` and the later builder
state `bNew`, most recent first. -/
def emittedSince (b bNew : Builder) : List EmittedInst :=
  bNew.instrs.take (bNew.instrs.length - b.instrs.length)

/-- Modelled from the spec (§4.2, stack misc): the IL `select(cond, x, y)`
instruction yields its second operand `x` when `cond` is truthy (non-zero)
and its third operand `y` otherwise. -/
def selectEval (cond x y : Int) : Int :=
  if cond ≠ 0 then x else y

/-- The value `v` was produced by a `sextend` instruction of builder `b`. -/
def producedBySextend (b : Builder) (v : Nat) : Bool :=
  b.instrs.any (fun e => e.results.contains v && e.instr.isSextendB)

/-- The value `v` was produced by a `bint` instruction of builder `b`. -/
def producedByBint (b : Builder) (v : Nat) : Bool :=
  b.instrs.any (fun e => e.results.contains v && e.instr.isBintB)

end Wasm2Cretonne

namespace Wasm2Cretonne

/-! ### Traces of import-resolver calls (for the resolver guarantees) -/

/-- One call into the import resolver during a function-body translation. -/
inductive FindCall
  | func (index : Nat)
  | sigc (sig_index : Nat)

/-- Run one resolver call, keeping only the evolved builder and import
maps. -/
def applyFind (c : FindCall) (b : Builder) (fi : FunctionImports) (functions : List Nat)
    (exports : Option (List (Nat × String))) (signatures : List Signature) :
    Option (Builder × FunctionImports) :=
  match c with
  | .func i => (find_function_import i b fi functions exports signatures).map (fun r => r.2)
  | .sigc s => (find_signature_import s b fi signatures).map (fun r => r.2)

/-- The number of IL function imports created for Wasm function index `i`
along a sequence of resolver calls (a call that aborts ends the count). -/
def countFuncImportsFor (i : Nat) (calls : List FindCall) (b : Builder)
    (fi : FunctionImports) (functions : List Nat) (exports : Option (List (Nat × String)))
    (signatures : List Signature) : Nat :=
  match calls with
  | [] => 0
  | c :: rest =>
    match applyFind c b fi functions exports signatures with
    | none => 0
    | some (b', fi') =>
      (match c with
        | .func j =>
          if j = i ∧ b'.importedFunctions.length ≠ b.importedFunctions.length then 1 else 0
        | .sigc _ => 0) +
        countFuncImportsFor i rest b' fi' functions exports signatures

/-- The number of IL signature imports created for Wasm signature index `s`
along a sequence of resolver calls. -/
def countSigImportsFor (s : Nat) (calls : List FindCall) (b : Builder)
    (fi : FunctionImports) (functions : List Nat) (exports : Option (List (Nat × String)))
    (signatures : List Signature) : Nat :=
  match calls with
  | [] => 0
  | c :: rest =>
    match applyFind c b fi functions exports signatures with
    | none => 0
    | some (b', fi') =>
      (match c with
        | .func j =>
          if functions[j]? = some s ∧
              b'.importedSignatures.length ≠ b.importedSignatures.length then 1 else 0
        | .sigc t =>
          if t = s ∧ b'.importedSignatures.length ≠ b.importedSignatures.length then 1 else 0) +
        countSigImportsFor s rest b' fi' functions exports signatures

/-! ### The shape of an event stream (for the failure model) -/

/-- The stream delivers, before the first `EndFunctionBody`, an event that
is neither `CodeOperator` nor `EndFunctionBody`. -/
def hasForeignBeforeEnd : List ParserState → Bool
  | [] => false
  | ParserState.CodeOperator _ :: rest => hasForeignBeforeEnd rest
  | ParserState.EndFunctionBody :: _ => false
  | ParserState.OtherState :: _ => true

/-! ### Shapes of pushed results (for the widening discipline) -/

/-- A binary operator that, on any state with two operands on the stack,
pushes a value produced by a `bint` conversion to `I32` as its last emitted
instruction. -/
def cmpBinPushesBint (op : Operator) : Prop :=
  ∀ (ctx : Ctx) (b : Builder) (cs : List ControlStackFrame) (ts : TranslationState)
    (fi : FunctionImports) (arg2 arg1 : Nat) (rest : List Nat),
    ∃ st', translate_operator op ctx ⟨b, arg2 :: arg1 :: rest, cs, ts, fi⟩ = some st' ∧
      st'.stack = (b.nextValue + 1) :: rest ∧
      ∃ e, st'.builder.instrs.head? = some e ∧
        e.instr = Instr.bint Ty.I32 b.nextValue ∧ e.results = [b.nextValue + 1]

/-- A unary operator that, on any state with one operand on the stack,
pushes a value produced by a `bint` conversion to `I32` as its last emitted
instruction. -/
def cmpUnPushesBint (op : Operator) : Prop :=
  ∀ (ctx : Ctx) (b : Builder) (cs : List ControlStackFrame) (ts : TranslationState)
    (fi : FunctionImports) (arg : Nat) (rest : List Nat),
    ∃ st', translate_operator op ctx ⟨b, arg :: rest, cs, ts, fi⟩ = some st' ∧
      st'.stack = (b.nextValue + 1) :: rest ∧
      ∃ e, st'.builder.instrs.head? = some e ∧
        e.instr = Instr.bint Ty.I32 b.nextValue ∧ e.results = [b.nextValue + 1]

/-- A unary operator that, on any state with one operand on the stack,
pushes a value produced by a `sextend` widening to `ty` as its last emitted
instruction. -/
def countPushesSextend (op : Operator) (ty : Ty) : Prop :=
  ∀ (ctx : Ctx) (b : Builder) (cs : List ControlStackFrame) (ts : TranslationState)
    (fi : FunctionImports) (arg : Nat) (rest : List Nat),
    ∃ st', translate_operator op ctx ⟨b, arg :: rest, cs, ts, fi⟩ = some st' ∧
      st'.stack = (b.nextValue + 1) :: rest ∧
      ∃ e, st'.builder.instrs.head? = some e ∧
        e.instr = Instr.sextend ty b.nextValue ∧ e.results = [b.nextValue + 1]

/-! ### Concrete fixtures used by witnesses and counterexamples -/

/-- The empty signature `() -> ()`. -/
def sigNone : Signature := { argument_types := [], return_types := [] }

/-- A signature `(i32) -> ()`. -/
def sigI32 : Signature := { argument_types := [Ty.I32], return_types := [] }

def bFix : Builder := Builder.new 0

def tsFix : TranslationState :=
  { last_inst_return := false
    phantom_unreachable_stack_depth := 0
    real_unreachable_stack_depth := 0
    br_table_reachable_ebbs := [] }

def tsUnreachFix : TranslationState :=
  { last_inst_return := false
    phantom_unreachable_stack_depth := 0
    real_unreachable_stack_depth := 1
    br_table_reachable_ebbs := [] }

def fiFix : FunctionImports := FunctionImports.new

def ctxFix : Ctx := { sig := sigNone, functions := [], signatures := [], exports := none }

/-- A `Block` frame with destination EBB 5, one `I32` result, snapshot 0. -/
def frameFix : ControlStackFrame := ControlStackFrame.Block 5 [Ty.I32] 0

def stFix (stack : List Nat) : TransSt :=
  { builder := bFix, stack := stack, controlStack := [], state := tsFix, funcImports := fiFix }

def stFrameFix (stack : List Nat) : TransSt :=
  { builder := bFix, stack := stack, controlStack := [frameFix], state := tsFix,
    funcImports := fiFix }

def stUnreachFix : TransSt :=
  { builder := bFix, stack := [], controlStack := [], state := tsUnreachFix,
    funcImports := fiFix }

end Wasm2Cretonne

namespace Wasm2Cretonne

/-- A builder that gained exactly one instruction has that instruction as
its newly emitted code. -/
theorem emittedSince_cons (b bNew : Builder) (e : EmittedInst)
    (h : bNew.instrs = e :: b.instrs) : emittedSince b bNew = [e] := by
  simp [emittedSince, h]

/-- Claim C1 (code bug).  The claim says `i32.load16_u` emits `uload16` and
`i32.load16_s` emits `sload16`.  Evaluating the translator at the failing
input — a reachable `i32.load16_u`/`i32.load16_s` with offset 0 and address
value 9 on the stack — shows it emits the 8-bit loads `uload8`/`sload8`
after the common effective-address computation. -/
theorem C1_i32_load16_emits_8bit_loads :
    (translate_operator (Operator.I32Load16U 0) ctxFix (stFix [9])).map
        (fun st => (emittedSince bFix st.builder).map (fun e => e.instr)) =
      some [Instr.uload8 Ty.I32 2 0, Instr.iadd 0 1, Instr.uextend Ty.I64 9] ∧
    (translate_operator (Operator.I32Load16S 0) ctxFix (stFix [9])).map
        (fun st => (emittedSince bFix st.builder).map (fun e => e.instr)) =
      some [Instr.sload8 Ty.I32 2 0, Instr.iadd 0 1, Instr.uextend Ty.I64 9] := by
  exact ⟨rfl, rfl⟩

/-- Claim C2 (confirmed).  A reachable `select` on an operand stack ending in
`a, b, cond` (so the list model reads `cond :: b :: a :: rest`) pops `cond`,
then `b`, then `a`, emits the single IL instruction `select(cond, b, a)`,
pushes its result, and the IL `select` yields the second-from-top value `b`
when `cond` is truthy. -/
theorem C2_select_shape (ctx : Ctx) (b : Builder) (cs : List ControlStackFrame)
    (ts : TranslationState) (fi : FunctionImports) (cond argB argA : Nat) (rest : List Nat) :
    ∃ st',
      translate_operator Operator.Select ctx ⟨b, cond :: argB :: argA :: rest, cs, ts, fi⟩ =
          some st' ∧
      (emittedSince b st'.builder).map (fun e => e.instr) = [Instr.select cond argB argA] ∧
      st'.stack = b.nextValue :: rest ∧
      st'.controlStack = cs ∧
      (∀ c x y : Int, c ≠ 0 → selectEval c x y = x) := by
  refine ⟨_, rfl, ?_, rfl, rfl, ?_⟩
  · simp [translate_operator, Builder.emit1, Builder.emitInst, emittedSince]
  · intro c x y hc
    simp [selectEval, hc]

/-- Claim C9 (confirmed).  A reachable `drop` on an empty operand stack does
not abort: it emits nothing and returns the state unchanged (`Vec::pop`
discards its `Option`), while the other popping operators — `select`,
`set_local`, a binary op — abort (`unwrap` of `None`) on the empty stack. -/
theorem C9_drop_empty_stack_safe (ctx : Ctx) (b : Builder) (cs : List ControlStackFrame)
    (fi : FunctionImports) (p r : Nat) (ebbs : List Nat) (k : Nat) :
    translate_operator Operator.Drop ctx ⟨b, [], cs, ⟨false, p, r, ebbs⟩, fi⟩ =
        some ⟨b, [], cs, ⟨false, p, r, ebbs⟩, fi⟩ ∧
    translate_operator Operator.Select ctx ⟨b, [], cs, ⟨false, p, r, ebbs⟩, fi⟩ = none ∧
    translate_operator (Operator.SetLocal k) ctx ⟨b, [], cs, ⟨false, p, r, ebbs⟩, fi⟩ = none ∧
    translate_operator Operator.I32Add ctx ⟨b, [], cs, ⟨false, p, r, ebbs⟩, fi⟩ = none := by
  exact ⟨rfl, rfl, rfl, rfl⟩

/-- Claim C5 (confirmed).  A `CodeOperator` event is dispatched to the
reachable translator exactly when
`phantom_unreachable_stack_depth + real_unreachable_stack_depth = 0`, and
to the unreachable translator otherwise. -/
theorem C5_dispatch_iff_depth_zero (op : Operator) (ctx : Ctx) (st : TransSt) :
    (st.state.phantom_unreachable_stack_depth + st.state.real_unreachable_stack_depth = 0 →
      dispatchOperator op ctx st = translate_operator op ctx st) ∧
    (st.state.phantom_unreachable_stack_depth + st.state.real_unreachable_stack_depth ≠ 0 →
      dispatchOperator op ctx st = translate_unreachable_operator op st) := by
  constructor
  · intro h
    unfold dispatchOperator
    rw [if_neg (by omega)]
  · intro h
    unfold dispatchOperator
    rw [if_pos (by omega)]

/-- Witness for C5 at concrete states: a reachable state (both counters 0)
goes to the reachable translator, a state with
`real_unreachable_stack_depth = 1` goes to the unreachable translator. -/
theorem C5_dispatch_iff_depth_zero_witness :
    dispatchOperator Operator.Nop ctxFix (stFix []) =
        translate_operator Operator.Nop ctxFix (stFix []) ∧
    dispatchOperator Operator.Nop ctxFix stUnreachFix =
        translate_unreachable_operator Operator.Nop stUnreachFix :=
  ⟨(C5_dispatch_iff_depth_zero Operator.Nop ctxFix (stFix [])).1 rfl,
   (C5_dispatch_iff_depth_zero Operator.Nop ctxFix stUnreachFix).2 (by decide)⟩

/-- Claim C8 (confirmed).  Translating an empty function body (the parser
immediately delivers `EndFunctionBody`) with zero parameters, zero locals
and return arity 0 yields a function whose entry EBB (EBB 0) contains
exactly one instruction, `return` with no arguments; the destination EBB of
the implicit block stays empty. -/
theorem C8_empty_body_single_return (function_index : Nat)
    (exports : Option (List (Nat × String))) (signatures : List Signature)
    (functions : List Nat) :
    (translate_function_body [ParserState.EndFunctionBody] function_index sigNone [] exports
          signatures functions).map
        (Except.map (fun r => (r.1.il.entry, r.1.il.blockInstrs 0, r.1.il.blockInstrs 1))) =
      some (Except.ok (some 0, [Instr.return_ []], [])) := by
  rfl

end Wasm2Cretonne

namespace Wasm2Cretonne

/-- Claim C4 (confirmed).  A reachable `br_if d` with a non-empty operand
stack (and enough remaining values for the target frame's arity) pops
exactly the condition, emits a single `brnz` to the `br_destination` of the
frame at relative depth `d` whose arguments are the top
`return_values`-many remaining values (in `Vec` order), and leaves the
operand stack equal to the original stack minus only the condition; the
control stack and imports are untouched. -/
theorem C4_brif_effect (ctx : Ctx) (b : Builder) (cs : List ControlStackFrame)
    (ts : TranslationState) (fi : FunctionImports) (d : Nat) (cond : Nat) (rest : List Nat)
    (frame : ControlStackFrame) (hframe : cs[d]? = some frame)
    (hlen : frame.return_values.length ≤ rest.length) :
    ∃ st',
      translate_operator (Operator.BrIf d) ctx ⟨b, cond :: rest, cs, ts, fi⟩ = some st' ∧
      (emittedSince b st'.builder).map (fun e => e.instr) =
        [Instr.brnz cond frame.br_destination
          ((rest.take frame.return_values.length).reverse)] ∧
      st'.stack = rest ∧
      st'.controlStack = cs ∧
      st'.funcImports = fi ∧
      st'.state = { ts with last_inst_return := false } := by
  have hsplit : splitOffTop frame.return_values.length rest =
      some ((rest.take frame.return_values.length).reverse,
        rest.drop frame.return_values.length) := by
    simp [splitOffTop, hlen]
  have htrans : translate_operator (Operator.BrIf d) ctx ⟨b, cond :: rest, cs, ts, fi⟩ =
      some ⟨(b.emit0 (Instr.brnz cond frame.br_destination
              ((rest.take frame.return_values.length).reverse))).2,
            extendTop ((rest.take frame.return_values.length).reverse)
              (rest.drop frame.return_values.length),
            cs, { ts with last_inst_return := false }, fi⟩ := by
    simp only [translate_operator, hframe, hsplit]
  refine ⟨_, htrans, ?_, ?_, rfl, rfl, rfl⟩
  · simp [emittedSince, Builder.emit0, Builder.emitInst]
  · simp [extendTop]

/-- Witness for C4: `br_if 0` towards a `Block` frame with destination
EBB 5 and one `I32` result, on the stack `[1, 2, 3]` (condition 1 on top). -/
theorem C4_brif_effect_witness :
    ([frameFix] : List ControlStackFrame)[0]? = some frameFix ∧
    frameFix.return_values.length ≤ [2, 3].length ∧
    ∃ st',
      translate_operator (Operator.BrIf 0) ctxFix ⟨bFix, 1 :: [2, 3], [frameFix], tsFix, fiFix⟩ =
          some st' ∧
      (emittedSince bFix st'.builder).map (fun e => e.instr) =
        [Instr.brnz 1 frameFix.br_destination
          (([2, 3].take frameFix.return_values.length).reverse)] ∧
      st'.stack = [2, 3] ∧
      st'.controlStack = [frameFix] ∧
      st'.funcImports = fiFix ∧
      st'.state = { tsFix with last_inst_return := false } :=
  ⟨rfl, by decide,
    C4_brif_effect ctxFix bFix [frameFix] tsFix fiFix 0 1 [2, 3] frameFix rfl (by decide)⟩

/-- Claim C10 (confirmed).  A reachable `br_table` whose depth table is empty
and whose minimum-depth target (here: the default target) has non-zero
return arity creates no jump table and no intermediate EBBs, adds nothing
to `br_table_reachable_ebbs`, pops only the index value, emits a single
jump to the default frame's `br_destination` carrying the tail jump
arguments, pushes those arguments back, and sets
`real_unreachable_stack_depth` to `1 + default`. -/
theorem C10_brtable_empty_depths (ctx : Ctx) (b : Builder) (cs : List ControlStackFrame)
    (ts : TranslationState) (fi : FunctionImports) (d : Nat) (cond : Nat) (rest : List Nat)
    (frame : ControlStackFrame) (hframe : cs[d]? = some frame)
    (hnz : frame.return_values.length ≠ 0)
    (hlen : frame.return_values.length ≤ rest.length) :
    ∃ st',
      translate_operator (Operator.BrTable [] d) ctx ⟨b, cond :: rest, cs, ts, fi⟩ = some st' ∧
      (emittedSince b st'.builder).map (fun e => e.instr) =
        [Instr.jump frame.br_destination
          ((rest.take frame.return_values.length).reverse)] ∧
      st'.stack = rest ∧
      st'.builder.nextEbb = b.nextEbb ∧
      st'.builder.jumpTableCount = b.jumpTableCount ∧
      st'.builder.jtEntries = b.jtEntries ∧
      st'.state.br_table_reachable_ebbs = ts.br_table_reachable_ebbs ∧
      st'.state.real_unreachable_stack_depth = 1 + d ∧
      st'.controlStack = cs := by
  have hsplit : splitOffTop frame.return_values.length rest =
      some ((rest.take frame.return_values.length).reverse,
        rest.drop frame.return_values.length) := by
    simp [splitOffTop, hlen]
  have htrans : translate_operator (Operator.BrTable [] d) ctx ⟨b, cond :: rest, cs, ts, fi⟩ =
      some ⟨(b.emit0 (Instr.jump frame.br_destination
              ((rest.take frame.return_values.length).reverse))).2,
            extendTop ((rest.take frame.return_values.length).reverse)
              (rest.drop frame.return_values.length),
            cs,
            { ts with last_inst_return := false, real_unreachable_stack_depth := 1 + d },
            fi⟩ := by
    simp only [translate_operator, List.foldl_nil, hframe]
    rw [if_neg hnz]
    simp only [hsplit, List.length_nil, lt_self_iff_false, ite_false, hframe]
  refine ⟨_, htrans, ?_, ?_, rfl, rfl, rfl, rfl, rfl, rfl⟩
  · simp [emittedSince, Builder.emit0, Builder.emitInst]
  · simp [extendTop]

/-- Witness for C10: `br_table` with empty depth table and default depth 0
towards a `Block` frame of arity 1 on the stack `[1, 2, 3]`. -/
theorem C10_brtable_empty_depths_witness :
    ([frameFix] : List ControlStackFrame)[0]? = some frameFix ∧
    frameFix.return_values.length ≠ 0 ∧
    frameFix.return_values.length ≤ [2, 3].length ∧
    ∃ st',
      translate_operator (Operator.BrTable [] 0) ctxFix
          ⟨bFix, 1 :: [2, 3], [frameFix], tsFix, fiFix⟩ = some st' ∧
      (emittedSince bFix st'.builder).map (fun e => e.instr) =
        [Instr.jump frameFix.br_destination
          (([2, 3].take frameFix.return_values.length).reverse)] ∧
      st'.stack = [2, 3] ∧
      st'.builder.nextEbb = bFix.nextEbb ∧
      st'.builder.jumpTableCount = bFix.jumpTableCount ∧
      st'.builder.jtEntries = bFix.jtEntries ∧
      st'.state.br_table_reachable_ebbs = tsFix.br_table_reachable_ebbs ∧
      st'.state.real_unreachable_stack_depth = 1 + 0 ∧
      st'.controlStack = [frameFix] :=
  ⟨rfl, by decide, by decide,
    C10_brtable_empty_depths ctxFix bFix [frameFix] tsFix fiFix 0 1 [2, 3] frameFix rfl
      (by decide) (by decide)⟩

end Wasm2Cretonne

namespace Wasm2Cretonne

/-- Claim C3, counterexample.  At the concrete input `i32.eqz` on the stack
`[9]`, the value pushed onto the operand stack is not produced by any
`sextend` instruction — it is produced by a `bint` conversion — refuting
the claim that every comparison result is pushed through `sextend`. -/
theorem C3_counterexample_eqz_pushes_bint :
    (translate_operator Operator.I32Eqz ctxFix (stFix [9])).map
        (fun st => st.stack.head?.map
          (fun v => (producedBySextend st.builder v, producedByBint st.builder v))) =
      some (some (false, true)) := by
  rfl

/-- Claim C3 (corrected).  Counted-bit opcodes (`clz`/`ctz`/`popcnt`) push a
value produced by a `sextend` widening to the Wasm result width (`I32` for
32-bit counts, `I64` for 64-bit counts), while every comparison opcode
(integer and float comparisons, including `eqz`) pushes a value produced by
a `bint` boolean-to-integer conversion to `I32` — not by a `sextend`. -/
theorem C3_widening_discipline :
    cmpBinPushesBint Operator.I32LtS ∧ cmpBinPushesBint Operator.I64LtS ∧
    cmpBinPushesBint Operator.I32LtU ∧ cmpBinPushesBint Operator.I64LtU ∧
    cmpBinPushesBint Operator.I32LeS ∧ cmpBinPushesBint Operator.I64LeS ∧
    cmpBinPushesBint Operator.I32LeU ∧ cmpBinPushesBint Operator.I64LeU ∧
    cmpBinPushesBint Operator.I32GtS ∧ cmpBinPushesBint Operator.I64GtS ∧
    cmpBinPushesBint Operator.I32GtU ∧ cmpBinPushesBint Operator.I64GtU ∧
    cmpBinPushesBint Operator.I32GeS ∧ cmpBinPushesBint Operator.I64GeS ∧
    cmpBinPushesBint Operator.I32GeU ∧ cmpBinPushesBint Operator.I64GeU ∧
    cmpBinPushesBint Operator.I32Eq ∧ cmpBinPushesBint Operator.I64Eq ∧
    cmpBinPushesBint Operator.I32Ne ∧ cmpBinPushesBint Operator.I64Ne ∧
    cmpBinPushesBint Operator.F32Eq ∧ cmpBinPushesBint Operator.F64Eq ∧
    cmpBinPushesBint Operator.F32Ne ∧ cmpBinPushesBint Operator.F64Ne ∧
    cmpBinPushesBint Operator.F32Gt ∧ cmpBinPushesBint Operator.F64Gt ∧
    cmpBinPushesBint Operator.F32Ge ∧ cmpBinPushesBint Operator.F64Ge ∧
    cmpBinPushesBint Operator.F32Lt ∧ cmpBinPushesBint Operator.F64Lt ∧
    cmpBinPushesBint Operator.F32Le ∧ cmpBinPushesBint Operator.F64Le ∧
    cmpUnPushesBint Operator.I32Eqz ∧ cmpUnPushesBint Operator.I64Eqz ∧
    countPushesSextend Operator.I32Clz Ty.I32 ∧ countPushesSextend Operator.I64Clz Ty.I64 ∧
    countPushesSextend Operator.I32Ctz Ty.I32 ∧ countPushesSextend Operator.I64Ctz Ty.I64 ∧
    countPushesSextend Operator.I32Popcnt Ty.I32 ∧
    countPushesSextend Operator.I64Popcnt Ty.I64 := by
  refine ⟨?_, ?_, ?_, ?_, ?_, ?_, ?_, ?_, ?_, ?_, ?_, ?_, ?_, ?_, ?_, ?_, ?_, ?_, ?_, ?_,
    ?_, ?_, ?_, ?_, ?_, ?_, ?_, ?_, ?_, ?_, ?_, ?_, ?_, ?_, ?_, ?_, ?_, ?_, ?_, ?_⟩ <;>
    · intro ctx b cs ts fi
      intros
      exact ⟨_, rfl, rfl, _, rfl, rfl, rfl⟩

end Wasm2Cretonne

namespace Wasm2Cretonne

/-- Along the main loop, the structural error is produced exactly when an
event that is neither `CodeOperator` nor `EndFunctionBody` arrives before
the first `EndFunctionBody`. -/
theorem translateLoop_error_iff (events : List ParserState) :
    ∀ (ctx : Ctx) (st : TransSt) (r : Except String TransSt),
      translateLoop events ctx st = some r →
      ((∃ e, r = Except.error e) ↔ hasForeignBeforeEnd events = true) := by
  induction events with
  | nil =>
    intro ctx st r h
    simp [translateLoop] at h
  | cons ev rest ih =>
    intro ctx st r h
    cases ev with
    | CodeOperator op =>
      simp only [translateLoop] at h
      cases hd : dispatchOperator op ctx st with
      | none => rw [hd] at h; simp at h
      | some st' =>
        rw [hd] at h
        simpa [hasForeignBeforeEnd] using ih ctx st' r h
    | EndFunctionBody =>
      simp only [translateLoop, Option.some.injEq] at h
      subst h
      simp [hasForeignBeforeEnd]
    | OtherState =>
      simp only [translateLoop, Option.some.injEq] at h
      subst h
      simp [hasForeignBeforeEnd]

/-- A stream of `CodeOperator` events terminated by `EndFunctionBody` can
end the loop (when it does not abort) only in the `ok` state. -/
theorem translateLoop_ok_on_wellformed (ops : List Operator) :
    ∀ (tail : List ParserState) (ctx : Ctx) (st : TransSt) (r : Except String TransSt),
      translateLoop (ops.map ParserState.CodeOperator ++ ParserState.EndFunctionBody :: tail)
          ctx st = some r →
      ∃ v, r = Except.ok v := by
  induction ops with
  | nil =>
    intro tail ctx st r h
    simp only [List.map_nil, List.nil_append, translateLoop, Option.some.injEq] at h
    exact ⟨st, h.symm⟩
  | cons op ops ih =>
    intro tail ctx st r h
    simp only [List.map_cons, List.cons_append, translateLoop] at h
    cases hd : dispatchOperator op ctx st with
    | none => rw [hd] at h; simp at h
    | some st' =>
      rw [hd] at h
      exact ih tail ctx st' r h

/-- Claim C7 (confirmed).  Whenever `translate_function_body` returns (no
invariant-violation abort), it returns the structural translation error if
and only if the parser delivered an event that is neither `CodeOperator`
nor `EndFunctionBody` before `EndFunctionBody`; and on a stream consisting
only of `CodeOperator` events terminated by `EndFunctionBody` it returns
`Ok` with the built function and its imports. -/
theorem C7_error_iff_foreign_event :
    (∀ (events : List ParserState) (function_index : Nat) (sig : Signature)
        (locals : List (Nat × Ty)) (exports : Option (List (Nat × String)))
        (signatures : List Signature) (functions : List Nat)
        (r : Except String (ILFunction × FunctionImports)),
      translate_function_body events function_index sig locals exports signatures functions =
          some r →
      ((∃ e, r = Except.error e) ↔ hasForeignBeforeEnd events = true)) ∧
    (∀ (ops : List Operator) (tail : List ParserState) (function_index : Nat)
        (sig : Signature) (locals : List (Nat × Ty)) (exports : Option (List (Nat × String)))
        (signatures : List Signature) (functions : List Nat)
        (r : Except String (ILFunction × FunctionImports)),
      translate_function_body
          (ops.map ParserState.CodeOperator ++ ParserState.EndFunctionBody :: tail)
          function_index sig locals exports signatures functions = some r →
      ∃ v, r = Except.ok v) := by
  constructor
  · intro events function_index sig locals exports signatures functions r h
    simp only [translate_function_body] at h
    split at h
    · simp at h
    · split at h
      · simp at h
      · -- the loop produced the structural error
        simp only [Option.some.injEq] at h
        subst h
        have htrue : hasForeignBeforeEnd events = true :=
          (translateLoop_error_iff events _ _ _ (by assumption)).mp ⟨_, rfl⟩
        rw [htrue]
        simp
      · -- the loop ended in the ok state
        have hforeign : hasForeignBeforeEnd events = false := by
          have hiff := translateLoop_error_iff events _ _ _ (by assumption)
          by_contra hx
          rw [Bool.not_eq_false] at hx
          obtain ⟨e, he⟩ := hiff.mpr hx
          exact absurd he (by simp)
        rw [hforeign]
        split at h
        · simp at h
        · simp only [Option.some.injEq] at h
          subst h
          simp
  · intro ops tail function_index sig locals exports signatures functions r h
    simp only [translate_function_body] at h
    split at h
    · simp at h
    · split at h
      · simp at h
      · -- the loop cannot produce the structural error on a well-formed
        -- stream
        obtain ⟨v, hv⟩ := translateLoop_ok_on_wellformed ops tail _ _ _ (by assumption)
        simp at hv
      · split at h
        · simp at h
        · simp only [Option.some.injEq] at h
          exact ⟨_, h.symm⟩

/-- Witness for C7: a stream whose first event is foreign yields exactly
the structural error, and the stream `nop; EndFunctionBody` returns `Ok`. -/
theorem C7_error_iff_foreign_event_witness :
    ((∃ e, (Except.error "wrong content in function body" :
        Except String (ILFunction × FunctionImports)) = Except.error e) ↔
      hasForeignBeforeEnd [ParserState.OtherState] = true) ∧
    (∃ r v, translate_function_body
        [ParserState.CodeOperator Operator.Nop, ParserState.EndFunctionBody] 0 sigNone []
        none [] [] = some r ∧ r = Except.ok v) := by
  constructor
  · exact C7_error_iff_foreign_event.1 [ParserState.OtherState] 0 sigNone [] none [] [] _ rfl
  · obtain ⟨v, hv⟩ :=
      C7_error_iff_foreign_event.2 [Operator.Nop] [] 0 sigNone [] none [] [] _ rfl
    exact ⟨_, v, rfl, hv⟩

end Wasm2Cretonne

namespace Wasm2Cretonne

theorem alLookup_cons_self {α : Type} (l : List (Nat × α)) (k : Nat) (v : α) :
    alLookup ((k, v) :: l) k = some v := by
  simp [alLookup]

theorem alLookup_cons_isSome {α : Type} (l : List (Nat × α)) (k j : Nat) (v : α)
    (h : (alLookup l j).isSome) : (alLookup ((k, v) :: l) j).isSome := by
  by_cases hk : k = j
  · subst hk
    simp [alLookup]
  · simpa [alLookup, List.find?_cons, Nat.beq_eq_true_eq, hk] using h

/-- Behaviour of one `find_function_import` call: the index ends up cached
with the returned `FuncRef`; cached entries of both maps survive; a cached
index returns without touching anything; the signature table of the IL only
grows when the function and its signature were both uncached, and then the
signature index ends up cached. -/
theorem find_function_import_props (j : Nat) (b : Builder) (fi : FunctionImports)
    (functions : List Nat) (exports : Option (List (Nat × String)))
    (signatures : List Signature) (r : Nat) (b' : Builder) (fi' : FunctionImports)
    (h : find_function_import j b fi functions exports signatures = some (r, b', fi')) :
    alLookup fi'.functions j = some r ∧
    (∀ i, (alLookup fi.functions i).isSome → (alLookup fi'.functions i).isSome) ∧
    (∀ s, (alLookup fi.signatures s).isSome → (alLookup fi'.signatures s).isSome) ∧
    ((alLookup fi.functions j).isSome → b' = b ∧ fi' = fi) ∧
    (∀ s, functions[j]? = some s → (alLookup fi.signatures s).isSome →
      b'.importedSignatures = b.importedSignatures) ∧
    (∀ s, functions[j]? = some s →
      b'.importedSignatures.length ≠ b.importedSignatures.length →
      (alLookup fi'.signatures s).isSome) := by
  unfold find_function_import at h
  split at h
  · -- the function index is cached
    rename_i local_index heq
    simp only [Option.some.injEq, Prod.mk.injEq] at h
    obtain ⟨h1, h2, h3⟩ := h
    subst h1; subst h2; subst h3
    refine ⟨heq, fun i hi => hi, fun s hs => hs, fun _ => ⟨rfl, rfl⟩, fun s _ _ => rfl,
      fun s _ hne => absurd rfl hne⟩
  · -- the function index is not cached
    rename_i heqf
    split at h
    · simp at h
    · rename_i sig_index heqidx
      split at h
      · -- the signature index is cached
        rename_i local_sig_index heqs
        simp only [Option.some.injEq, Prod.mk.injEq] at h
        obtain ⟨h1, h2, h3⟩ := h
        subst h1; subst h2; subst h3
        refine ⟨alLookup_cons_self _ _ _, fun i hi => alLookup_cons_isSome _ _ _ _ hi,
          fun s hs => hs, ?_, fun s _ _ => rfl, fun s _ hne => absurd rfl hne⟩
        intro hx
        rw [heqf] at hx
        simp at hx
      · -- neither is cached: import the signature, then the function
        rename_i heqs
        split at h
        · simp at h
        · rename_i sg heqsig
          simp only [Option.some.injEq, Prod.mk.injEq] at h
          obtain ⟨h1, h2, h3⟩ := h
          subst h1; subst h2; subst h3
          refine ⟨alLookup_cons_self _ _ _, fun i hi => alLookup_cons_isSome _ _ _ _ hi,
            fun s hs => alLookup_cons_isSome _ _ _ _ hs, ?_, ?_, ?_⟩
          · intro hx
            rw [heqf] at hx
            simp at hx
          · intro s hegets hs
            rw [heqidx] at hegets
            simp only [Option.some.injEq] at hegets
            subst hegets
            rw [heqs] at hs
            simp at hs
          · intro s hegets _
            rw [heqidx] at hegets
            simp only [Option.some.injEq] at hegets
            subst hegets
            simp [alLookup_cons_self]

/-- Behaviour of one `find_signature_import` call: the signature index ends
up cached with the returned `SigRef`; cached signature entries survive; the
function map is untouched; a cached index returns without touching
anything; the IL signature table grows only on a cache miss and then the
index is cached. -/
theorem find_signature_import_props (t : Nat) (b : Builder) (fi : FunctionImports)
    (signatures : List Signature) (r : Nat) (b' : Builder) (fi' : FunctionImports)
    (h : find_signature_import t b fi signatures = some (r, b', fi')) :
    alLookup fi'.signatures t = some r ∧
    (∀ s, (alLookup fi.signatures s).isSome → (alLookup fi'.signatures s).isSome) ∧
    fi'.functions = fi.functions ∧
    ((alLookup fi.signatures t).isSome → b' = b ∧ fi' = fi) := by
  unfold find_signature_import at h
  split at h
  · rename_i local_sig_index heq
    simp only [Option.some.injEq, Prod.mk.injEq] at h
    obtain ⟨h1, h2, h3⟩ := h
    subst h1; subst h2; subst h3
    exact ⟨heq, fun s hs => hs, rfl, fun _ => ⟨rfl, rfl⟩⟩
  · rename_i heqs
    split at h
    · simp at h
    · rename_i sg heqsig
      simp only [Option.some.injEq, Prod.mk.injEq] at h
      obtain ⟨h1, h2, h3⟩ := h
      subst h1; subst h2; subst h3
      refine ⟨alLookup_cons_self _ _ _, fun s hs => alLookup_cons_isSome _ _ _ _ hs, rfl, ?_⟩
      intro hx
      rw [heqs] at hx
      simp at hx

end Wasm2Cretonne

namespace Wasm2Cretonne

/-- Once a function index is cached, no later resolver call creates an IL
function import for it. -/
theorem countFuncImportsFor_zero (i : Nat) (calls : List FindCall) :
    ∀ (functions : List Nat) (exports : Option (List (Nat × String)))
      (signatures : List Signature) (b : Builder) (fi : FunctionImports),
      (alLookup fi.functions i).isSome →
      countFuncImportsFor i calls b fi functions exports signatures = 0 := by
  induction calls with
  | nil => intro _ _ _ _ _ _; rfl
  | cons c rest ih =>
    intro functions exports signatures b fi hsome
    cases c with
    | func j =>
      cases hf : find_function_import j b fi functions exports signatures with
      | none => simp [countFuncImportsFor, applyFind, hf]
      | some t =>
        obtain ⟨r, b', fi'⟩ := t
        have hp := find_function_import_props j b fi functions exports signatures r b' fi' hf
        have htail := ih functions exports signatures b' fi' (hp.2.1 i hsome)
        by_cases hji : j = i
        · subst hji
          obtain ⟨hb, hfi⟩ := hp.2.2.2.1 hsome
          subst hb; subst hfi
          simp [countFuncImportsFor, applyFind, hf, htail]
        · simp [countFuncImportsFor, applyFind, hf, hji, htail]
    | sigc t =>
      cases hf : find_signature_import t b fi signatures with
      | none => simp [countFuncImportsFor, applyFind, hf]
      | some u =>
        obtain ⟨r, b', fi'⟩ := u
        have hp := find_signature_import_props t b fi signatures r b' fi' hf
        have hsome' : (alLookup fi'.functions i).isSome := by
          rw [hp.2.2.1]; exact hsome
        have htail := ih functions exports signatures b' fi' hsome'
        simp [countFuncImportsFor, applyFind, hf, htail]

/-- Once a signature index is cached, no later resolver call creates an IL
signature import for it. -/
theorem countSigImportsFor_zero (s : Nat) (calls : List FindCall) :
    ∀ (functions : List Nat) (exports : Option (List (Nat × String)))
      (signatures : List Signature) (b : Builder) (fi : FunctionImports),
      (alLookup fi.signatures s).isSome →
      countSigImportsFor s calls b fi functions exports signatures = 0 := by
  induction calls with
  | nil => intro _ _ _ _ _ _; rfl
  | cons c rest ih =>
    intro functions exports signatures b fi hsome
    cases c with
    | func j =>
      cases hf : find_function_import j b fi functions exports signatures with
      | none => simp [countSigImportsFor, applyFind, hf]
      | some t =>
        obtain ⟨r, b', fi'⟩ := t
        have hp := find_function_import_props j b fi functions exports signatures r b' fi' hf
        have htail := ih functions exports signatures b' fi' (hp.2.2.1 s hsome)
        by_cases hjs : functions[j]? = some s
        · have heqsig := hp.2.2.2.2.1 s hjs hsome
          simp [countSigImportsFor, applyFind, hf, htail, heqsig]
        · simp [countSigImportsFor, applyFind, hf, hjs, htail]
    | sigc t =>
      cases hf : find_signature_import t b fi signatures with
      | none => simp [countSigImportsFor, applyFind, hf]
      | some u =>
        obtain ⟨r, b', fi'⟩ := u
        have hp := find_signature_import_props t b fi signatures r b' fi' hf
        have htail := ih functions exports signatures b' fi' (hp.2.1 s hsome)
        by_cases hts : t = s
        · subst hts
          obtain ⟨hb, hfi⟩ := hp.2.2.2 hsome
          subst hb; subst hfi
          simp [countSigImportsFor, applyFind, hf, htail]
        · simp [countSigImportsFor, applyFind, hf, hts, htail]

end Wasm2Cretonne

namespace Wasm2Cretonne

/-- At most one IL function import is ever created per Wasm function index
along any sequence of resolver calls. -/
theorem countFuncImportsFor_le_one (i : Nat) (calls : List FindCall) :
    ∀ (functions : List Nat) (exports : Option (List (Nat × String)))
      (signatures : List Signature) (b : Builder) (fi : FunctionImports),
      countFuncImportsFor i calls b fi functions exports signatures ≤ 1 := by
  induction calls with
  | nil => intro _ _ _ _ _; simp [countFuncImportsFor]
  | cons c rest ih =>
    intro functions exports signatures b fi
    cases c with
    | func j =>
      cases hf : find_function_import j b fi functions exports signatures with
      | none => simp [countFuncImportsFor, applyFind, hf]
      | some t =>
        obtain ⟨r, b', fi'⟩ := t
        have hp := find_function_import_props j b fi functions exports signatures r b' fi' hf
        by_cases hji : j = i
        · subst hji
          have htail := countFuncImportsFor_zero j rest functions exports signatures b' fi'
            (by rw [hp.1]; rfl)
          simp only [countFuncImportsFor, applyFind, hf, Option.map_some', htail,
            Nat.add_zero]
          split <;> simp
        · have htail := ih functions exports signatures b' fi'
          simp only [countFuncImportsFor, applyFind, hf, Option.map_some', hji,
            false_and, if_false, Nat.zero_add]
          exact htail
    | sigc t =>
      cases hf : find_signature_import t b fi signatures with
      | none => simp [countSigImportsFor, countFuncImportsFor, applyFind, hf]
      | some u =>
        obtain ⟨r, b', fi'⟩ := u
        have htail := ih functions exports signatures b' fi'
        simp only [countFuncImportsFor, applyFind, hf, Option.map_some', Nat.zero_add]
        exact htail

/-- At most one IL signature import is ever created per Wasm signature
index along any sequence of resolver calls. -/
theorem countSigImportsFor_le_one (s : Nat) (calls : List FindCall) :
    ∀ (functions : List Nat) (exports : Option (List (Nat × String)))
      (signatures : List Signature) (b : Builder) (fi : FunctionImports),
      countSigImportsFor s calls b fi functions exports signatures ≤ 1 := by
  induction calls with
  | nil => intro _ _ _ _ _; simp [countSigImportsFor]
  | cons c rest ih =>
    intro functions exports signatures b fi
    cases c with
    | func j =>
      cases hf : find_function_import j b fi functions exports signatures with
      | none => simp [countSigImportsFor, applyFind, hf]
      | some t =>
        obtain ⟨r, b', fi'⟩ := t
        have hp := find_function_import_props j b fi functions exports signatures r b' fi' hf
        by_cases hjs : functions[j]? = some s
        · by_cases hgrow : b'.importedSignatures.length = b.importedSignatures.length
          · have htail := ih functions exports signatures b' fi'
            simp only [countSigImportsFor, applyFind, hf, Option.map_some', hgrow,
              ne_eq, not_true_eq_false, and_false, if_false, Nat.zero_add]
            exact htail
          · have hsome' := hp.2.2.2.2.2 s hjs hgrow
            have htail := countSigImportsFor_zero s rest functions exports signatures b' fi'
              hsome'
            simp only [countSigImportsFor, applyFind, hf, Option.map_some', htail,
              Nat.add_zero]
            split <;> simp
        · have htail := ih functions exports signatures b' fi'
          simp only [countSigImportsFor, applyFind, hf, Option.map_some', hjs,
            false_and, if_false, Nat.zero_add]
          exact htail
    | sigc t =>
      cases hf : find_signature_import t b fi signatures with
      | none => simp [countSigImportsFor, applyFind, hf]
      | some u =>
        obtain ⟨r, b', fi'⟩ := u
        have hp := find_signature_import_props t b fi signatures r b' fi' hf
        by_cases hts : t = s
        · subst hts
          have htail := countSigImportsFor_zero t rest functions exports signatures b' fi'
            (by rw [hp.1]; rfl)
          simp only [countSigImportsFor, applyFind, hf, Option.map_some', htail,
            Nat.add_zero]
          split <;> simp
        · have htail := ih functions exports signatures b' fi'
          simp only [countSigImportsFor, applyFind, hf, Option.map_some', hts,
            false_and, if_false, Nat.zero_add]
          exact htail

end Wasm2Cretonne

namespace Wasm2Cretonne

/-- Claim C6 (confirmed).  Within one function-body translation the import
resolver is idempotent: a second `find_function_import`
(resp. `find_signature_import`) with the same index returns the same
`FuncRef` (resp. `SigRef`), performs no new IL import, and leaves the
builder and both maps of `FunctionImports` exactly as the first call left
them; and along any sequence of resolver calls at most one IL import is
ever created per Wasm function index and per Wasm signature index. -/
theorem C6_import_resolver_idempotent :
    (∀ (j : Nat) (b : Builder) (fi : FunctionImports) (functions : List Nat)
        (exports : Option (List (Nat × String))) (signatures : List Signature)
        (r : Nat) (b' : Builder) (fi' : FunctionImports),
      find_function_import j b fi functions exports signatures = some (r, b', fi') →
      find_function_import j b' fi' functions exports signatures = some (r, b', fi')) ∧
    (∀ (t : Nat) (b : Builder) (fi : FunctionImports) (signatures : List Signature)
        (r : Nat) (b' : Builder) (fi' : FunctionImports),
      find_signature_import t b fi signatures = some (r, b', fi') →
      find_signature_import t b' fi' signatures = some (r, b', fi')) ∧
    (∀ (i : Nat) (calls : List FindCall) (functions : List Nat)
        (exports : Option (List (Nat × String))) (signatures : List Signature)
        (b : Builder) (fi : FunctionImports),
      countFuncImportsFor i calls b fi functions exports signatures ≤ 1) ∧
    (∀ (s : Nat) (calls : List FindCall) (functions : List Nat)
        (exports : Option (List (Nat × String))) (signatures : List Signature)
        (b : Builder) (fi : FunctionImports),
      countSigImportsFor s calls b fi functions exports signatures ≤ 1) := by
  refine ⟨?_, ?_, ?_, ?_⟩
  · intro j b fi functions exports signatures r b' fi' h
    have hl := (find_function_import_props j b fi functions exports signatures r b' fi' h).1
    unfold find_function_import
    rw [hl]
  · intro t b fi signatures r b' fi' h
    have hl := (find_signature_import_props t b fi signatures r b' fi' h).1
    unfold find_signature_import
    rw [hl]
  · intro i calls functions exports signatures b fi
    exact countFuncImportsFor_le_one i calls functions exports signatures b fi
  · intro s calls functions exports signatures b fi
    exact countSigImportsFor_le_one s calls functions exports signatures b fi

/-- Witness for C6: a concrete first call that misses both caches (module
with one function of signature `(i32) -> ()`), followed by the second
call returning the same references without change. -/
theorem C6_import_resolver_idempotent_witness :
    (find_function_import 0 bFix fiFix [0] none [sigI32] = some (0,
      { bFix with
        importedFunctions := [{ name := "", signature := 0 }]
        importedSignatures := [sigI32] },
      { functions := [(0, 0)], signatures := [(0, 0)] })) ∧
    (find_function_import 0
      { bFix with
        importedFunctions := [{ name := "", signature := 0 }]
        importedSignatures := [sigI32] }
      { functions := [(0, 0)], signatures := [(0, 0)] } [0] none [sigI32] = some (0,
      { bFix with
        importedFunctions := [{ name := "", signature := 0 }]
        importedSignatures := [sigI32] },
      { functions := [(0, 0)], signatures := [(0, 0)] })) ∧
    (find_signature_import 0 bFix fiFix [sigI32] = some (0,
      { bFix with importedSignatures := [sigI32] },
      { functions := [], signatures := [(0, 0)] })) ∧
    (find_signature_import 0 { bFix with importedSignatures := [sigI32] }
      { functions := [], signatures := [(0, 0)] } [sigI32] = some (0,
      { bFix with importedSignatures := [sigI32] },
      { functions := [], signatures := [(0, 0)] })) := by
  have h1 : find_function_import 0 bFix fiFix [0] none [sigI32] = some (0,
      { bFix with
        importedFunctions := [{ name := "", signature := 0 }]
        importedSignatures := [sigI32] },
      { functions := [(0, 0)], signatures := [(0, 0)] }) := by rfl
  have h3 : find_signature_import 0 bFix fiFix [sigI32] = some (0,
      { bFix with importedSignatures := [sigI32] },
      { functions := [], signatures := [(0, 0)] }) := by rfl
  exact ⟨h1, C6_import_resolver_idempotent.1 0 bFix fiFix [0] none [sigI32] _ _ _ h1,
    h3, C6_import_resolver_idempotent.2.1 0 bFix fiFix [sigI32] _ _ _ h3⟩

end Wasm2Cretonne
